import Mathlib

/-!
Verification of the OAuth Preset Manager core (`opm/core.py`).

We give a shallow embedding of the credential snapshot engine (diff,
selective merge, backup rotation, preset store) and of the multi-provider
quota collector (token extraction, deduplication, refresh-and-retry), and
prove the specified properties about the embedding.

Modelling conventions:
* Python `dict`s are association lists `List (String × V)` that keep
  insertion order; assignment replaces the value of the first matching key
  in place (`dinsert`), deletion removes the key (`derase`), exactly like
  CPython dictionaries (which never hold duplicate keys).
* JSON values are the inductive `JVal`; numbers are rationals (ints and
  floats are both exact here), strings are plain (escape sequences are
  outside the modelled fragment).
* Python `==` on parsed JSON is `pyEq`: order-insensitive on objects,
  order-sensitive on arrays, mirroring CPython `dict.__eq__`.
* Python string sorting is the code-point lexicographic order `strLe`.
* Files are strings; the file system touched by the manager is the `FS`
  structure.  Exceptions are modelled by explicit error results, with the
  post-state returned alongside (so partially applied mutations are
  observable).
-/

namespace OPM

/-! ## Code-point string ordering (Python `sorted` on `str`) -/

def charListLe : List Char → List Char → Bool
  | [], _ => true
  | _ :: _, [] => false
  | a :: as, b :: bs =>
    if a.toNat < b.toNat then true
    else if b.toNat < a.toNat then false
    else charListLe as bs

def strLeB (a b : String) : Bool := charListLe a.data b.data

def strLe : String → String → Prop := fun a b => strLeB a b = true

instance : DecidableRel strLe := fun a b => by unfold strLe; infer_instance

theorem charListLe_cons (x y : Char) (xs ys : List Char) :
    charListLe (x :: xs) (y :: ys) = true ↔
      x.toNat < y.toNat ∨ (x.toNat = y.toNat ∧ charListLe xs ys = true) := by
  simp only [charListLe]
  by_cases h1 : x.toNat < y.toNat
  · simp [h1]
  · by_cases h2 : y.toNat < x.toNat
    · have h3 : ¬ (x.toNat < y.toNat ∨ (x.toNat = y.toNat ∧ charListLe xs ys = true)) := by
        rintro (h | ⟨h, _⟩) <;> omega
      rw [if_neg h1, if_pos h2]
      simp [h3]
    · have h3 : x.toNat = y.toNat := by omega
      simp [h1, h2, h3]

theorem charListLe_total : ∀ a b, charListLe a b = true ∨ charListLe b a = true := by
  intro a
  induction a with
  | nil => intro b; left; rfl
  | cons x xs ih =>
    intro b
    cases b with
    | nil => right; rfl
    | cons y ys =>
      rw [charListLe_cons, charListLe_cons]
      rcases Nat.lt_trichotomy x.toNat y.toNat with h | h | h
      · left; left; exact h
      · rcases ih ys with h3 | h3
        · left; right; exact ⟨h, h3⟩
        · right; right; exact ⟨h.symm, h3⟩
      · right; left; exact h

theorem charListLe_trans :
    ∀ a b c, charListLe a b = true → charListLe b c = true → charListLe a c = true := by
  intro a
  induction a with
  | nil => intro b c _ _; rfl
  | cons x xs ih =>
    intro b c hab hbc
    cases b with
    | nil => simp [charListLe] at hab
    | cons y ys =>
      cases c with
      | nil => simp [charListLe] at hbc
      | cons z zs =>
        rw [charListLe_cons] at hab hbc ⊢
        rcases hab with hab | ⟨hab, hab2⟩
        · rcases hbc with hbc | ⟨hbc, _⟩
          · left; omega
          · left; omega
        · rcases hbc with hbc | ⟨hbc, hbc2⟩
          · left; omega
          · right; exact ⟨by omega, ih ys zs hab2 hbc2⟩

theorem charListLe_antisymm :
    ∀ a b, charListLe a b = true → charListLe b a = true → a = b := by
  intro a
  induction a with
  | nil =>
    intro b _ hba
    cases b with
    | nil => rfl
    | cons y ys => simp [charListLe] at hba
  | cons x xs ih =>
    intro b hab hba
    cases b with
    | nil => simp [charListLe] at hab
    | cons y ys =>
      rw [charListLe_cons] at hab hba
      have hxy : x.toNat = y.toNat := by
        rcases hab with h | ⟨h, _⟩ <;> rcases hba with h2 | ⟨h2, _⟩ <;> omega
      have hx : x = y := Char.eq_of_val_eq (UInt32.ext hxy)
      have htail : xs = ys := by
        rcases hab with h | ⟨_, h1⟩
        · omega
        · rcases hba with h2 | ⟨_, h2⟩
          · omega
          · exact ih ys h1 h2
      rw [hx, htail]

instance : IsTotal String strLe :=
  ⟨fun a b => charListLe_total a.data b.data⟩

instance : IsTrans String strLe :=
  ⟨fun a b c => charListLe_trans a.data b.data c.data⟩

instance : IsAntisymm String strLe :=
  ⟨fun a b hab hba => by
    have h := charListLe_antisymm a.data b.data hab hba
    cases a; cases b
    exact congrArg String.mk h⟩

/-- Sort a list of strings the way Python `sorted` does (stably, by code
points). -/
def pySorted (l : List String) : List String := List.insertionSort strLe l

/-! ## Python dictionaries as association lists -/

/-- First-match lookup, i.e. `d[k]` / `d.get(k)` on a CPython dict
(which never holds duplicate keys). -/
def dlookup {V : Type} : List (String × V) → String → Option V
  | [], _ => none
  | (k, v) :: rest, key => if k = key then some v else dlookup rest key

/-- `d[k] = v`: replace the value of an existing key in place, else append. -/
def dinsert {V : Type} : List (String × V) → String → V → List (String × V)
  | [], key, v => [(key, v)]
  | (k, w) :: rest, key, v =>
    if k = key then (key, v) :: rest else (k, w) :: dinsert rest key v

/-- `del d[k]`. -/
def derase {V : Type} (m : List (String × V)) (key : String) : List (String × V) :=
  m.filter (fun p => p.1 != key)

/-- The key list of a dict, in insertion order (`list(d.keys())`). -/
def dkeys {V : Type} (m : List (String × V)) : List String := m.map Prod.fst

theorem dlookup_dinsert {V : Type} (m : List (String × V)) (k k' : String) (v : V) :
    dlookup (dinsert m k v) k' = if k = k' then some v else dlookup m k' := by
  induction m with
  | nil => simp [dinsert, dlookup]
  | cons p rest ih =>
    obtain ⟨pk, pv⟩ := p
    by_cases h : pk = k
    · subst h
      by_cases h' : pk = k'
      · subst h'; simp [dinsert, dlookup]
      · simp [dinsert, dlookup, h']
    · by_cases h' : pk = k'
      · subst h'
        have h2 : ¬ k = pk := fun hh => h hh.symm
        simp [dinsert, dlookup, h, h2]
      · simp [dinsert, dlookup, h, h', ih]

theorem dlookup_derase {V : Type} (m : List (String × V)) (k k' : String) :
    dlookup (derase m k) k' = if k = k' then none else dlookup m k' := by
  induction m with
  | nil => simp [derase, dlookup]
  | cons p rest ih =>
    obtain ⟨pk, pv⟩ := p
    by_cases h : pk = k
    · subst h
      have : derase ((pk, pv) :: rest) pk = derase rest pk := by
        simp [derase, List.filter]
      rw [this, ih]
      by_cases h' : pk = k'
      · subst h'; simp
      · have h2 : ¬ k' = pk := fun hh => h' hh.symm
        simp [h', dlookup, h2]
    · have hne : (pk != k) = true := by simpa using h
      have : derase ((pk, pv) :: rest) k = (pk, pv) :: derase rest k := by
        simp [derase, List.filter, hne]
      rw [this]
      by_cases h' : pk = k'
      · subst h'
        have h2 : ¬ k = pk := fun hh => h hh.symm
        simp [dlookup, h2]
      · simp [dlookup, h', ih]

theorem dlookup_mem_dkeys {V : Type} (m : List (String × V)) (k : String) :
    (dlookup m k).isSome ↔ k ∈ dkeys m := by
  induction m with
  | nil => simp [dlookup, dkeys]
  | cons p rest ih =>
    obtain ⟨pk, pv⟩ := p
    by_cases h : pk = k
    · subst h; simp [dlookup, dkeys]
    · have h2 : ¬ k = pk := fun hh => h hh.symm
      simp [dlookup, dkeys, h, h2, ih]

/-! ## JSON values and Python semantics -/

inductive JVal where
  | null
  | bool (b : Bool)
  | num (q : ℚ)
  | str (s : String)
  | arr (xs : List JVal)
  | obj (fields : List (String × JVal))

/-- Python truthiness of a JSON value (`bool(x)`). -/
def jTruthy : JVal → Bool
  | JVal.null => false
  | JVal.bool b => b
  | JVal.num q => q != 0
  | JVal.str s => s != ""
  | JVal.arr xs => !xs.isEmpty
  | JVal.obj fields => !fields.isEmpty

/-- Truthiness of `d.get(k)` style optional values (`None` is falsy). -/
def jTruthyO : Option JVal → Bool
  | none => false
  | some v => jTruthy v

mutual
/-- CPython `==` on parsed JSON: dicts compare as finite maps (length
check plus per-key comparison), lists pointwise, scalars by value. -/
def pyEq : JVal → JVal → Bool
  | JVal.null, JVal.null => true
  | JVal.bool a, JVal.bool b => a == b
  | JVal.num a, JVal.num b => a == b
  | JVal.str a, JVal.str b => a == b
  | JVal.arr xs, JVal.arr ys => pyEqList xs ys
  | JVal.obj xs, JVal.obj ys => xs.length == ys.length && pyEqFields xs ys
  | _, _ => false

def pyEqList : List JVal → List JVal → Bool
  | [], [] => true
  | x :: xs, y :: ys => pyEq x y && pyEqList xs ys
  | _, _ => false

def pyEqFields : List (String × JVal) → List (String × JVal) → Bool
  | [], _ => true
  | (k, v) :: rest, ys =>
    (match dlookup ys k with
     | some w => pyEq v w
     | none => false) && pyEqFields rest ys
end

/-! ## JSON serialization: Python `json.dump(v, f, indent=2)`

Covers the JSON fragment used by the manager: no string escapes, integral
numbers (the manager never writes non-integral numbers itself), default
separators.  Empty containers stay compact, exactly as in CPython. -/

def indentPad (lvl : Nat) : String := String.mk (List.replicate (2 * lvl) ' ')

def jdumpNum (q : ℚ) : String :=
  if q.den = 1 then toString q.num else toString q

mutual
def jdump : Nat → JVal → String
  | _, JVal.null => "null"
  | _, JVal.bool b => cond b "true" "false"
  | _, JVal.num q => jdumpNum q
  | _, JVal.str s => "\"" ++ s ++ "\""
  | _, JVal.arr [] => "[]"
  | lvl, JVal.arr (x :: xs) =>
    "[\n" ++ jdumpArrItems (lvl + 1) x xs ++ "\n" ++ indentPad lvl ++ "]"
  | _, JVal.obj [] => "\x7b\x7d"
  | lvl, JVal.obj (f :: fs) =>
    "\x7b\n" ++ jdumpObjItems (lvl + 1) f fs ++ "\n" ++ indentPad lvl ++ "\x7d"
termination_by _ v => sizeOf v
decreasing_by all_goals (simp_wf; try omega)

def jdumpArrItems : Nat → JVal → List JVal → String
  | lvl, x, [] => indentPad lvl ++ jdump lvl x
  | lvl, x, y :: ys => indentPad lvl ++ jdump lvl x ++ ",\n" ++ jdumpArrItems lvl y ys
termination_by _ x xs => sizeOf x + sizeOf xs
decreasing_by all_goals (simp_wf; try omega)

def jdumpObjItems : Nat → (String × JVal) → List (String × JVal) → String
  | lvl, (k, v), [] => indentPad lvl ++ "\"" ++ k ++ "\": " ++ jdump lvl v
  | lvl, (k, v), f :: fs =>
    indentPad lvl ++ "\"" ++ k ++ "\": " ++ jdump lvl v ++ ",\n" ++ jdumpObjItems lvl f fs
termination_by _ f fs => sizeOf f + sizeOf fs
decreasing_by all_goals (simp_wf; try omega)
end

/-! ## JSON parsing: Python `json.load` on the same fragment

A fuel-indexed recursive-descent parser.  Duplicate object keys overwrite
in place (`dinsert`), as they do when CPython builds the dict.  Trailing
data after the top-level value is rejected, as in `json.loads`. -/

def isJsonWs (c : Char) : Bool := c = ' ' || c = '\n' || c = '\t' || c = '\r'

def skipWs : List Char → List Char
  | [] => []
  | c :: cs => if isJsonWs c then skipWs cs else c :: cs

def parseStrChars : List Char → Option (List Char × List Char)
  | [] => none
  | c :: cs =>
    if c = '"' then some ([], cs)
    else if c = '\\' then none
    else match parseStrChars cs with
      | some (s, rest) => some (c :: s, rest)
      | none => none

def digitsVal (ds : List Char) : ℕ :=
  ds.foldl (fun a c => 10 * a + (c.toNat - 48)) 0

def parseNumChars (cs : List Char) : Option (ℚ × List Char) :=
  let neg : Bool := match cs with
    | '-' :: _ => true
    | _ => false
  let cs1 := match cs with
    | '-' :: rest => rest
    | _ => cs
  let ds := cs1.takeWhile Char.isDigit
  let rest1 := cs1.dropWhile Char.isDigit
  if ds.isEmpty then none
  else
    let intPart : ℕ := digitsVal ds
    match rest1 with
    | '.' :: rest2 =>
      let fs := rest2.takeWhile Char.isDigit
      let rest3 := rest2.dropWhile Char.isDigit
      if fs.isEmpty then none
      else
        let q : ℚ := (intPart : ℚ) + (digitsVal fs : ℚ) / ((10 : ℚ) ^ fs.length)
        some (if neg then -q else q, rest3)
    | _ => some (if neg then -(intPart : ℚ) else (intPart : ℚ), rest1)

mutual
def parseJ : Nat → List Char → Option (JVal × List Char)
  | 0, _ => none
  | Nat.succ fuel, cs =>
    match skipWs cs with
    | 'n' :: 'u' :: 'l' :: 'l' :: rest => some (JVal.null, rest)
    | 't' :: 'r' :: 'u' :: 'e' :: rest => some (JVal.bool true, rest)
    | 'f' :: 'a' :: 'l' :: 's' :: 'e' :: rest => some (JVal.bool false, rest)
    | '"' :: rest =>
      (match parseStrChars rest with
       | some (s, rest2) => some (JVal.str (String.mk s), rest2)
       | none => none)
    | '[' :: rest =>
      (match skipWs rest with
       | ']' :: rest2 => some (JVal.arr [], rest2)
       | _ => parseArrItems fuel [] (skipWs rest))
    | '\x7b' :: rest =>
      (match skipWs rest with
       | '\x7d' :: rest2 => some (JVal.obj [], rest2)
       | _ => parseObjItems fuel [] (skipWs rest))
    | other => parseNumChars other |>.map (fun p => (JVal.num p.1, p.2))

def parseArrItems : Nat → List JVal → List Char → Option (JVal × List Char)
  | 0, _, _ => none
  | Nat.succ fuel, acc, cs =>
    match parseJ fuel cs with
    | none => none
    | some (v, rest) =>
      match skipWs rest with
      | ',' :: rest2 => parseArrItems fuel (acc ++ [v]) rest2
      | ']' :: rest2 => some (JVal.arr (acc ++ [v]), rest2)
      | _ => none

def parseObjItems : Nat → List (String × JVal) → List Char → Option (JVal × List Char)
  | 0, _, _ => none
  | Nat.succ fuel, acc, cs =>
    match skipWs cs with
    | '"' :: rest =>
      (match parseStrChars rest with
       | none => none
       | some (k, rest2) =>
         match skipWs rest2 with
         | ':' :: rest3 =>
           (match parseJ fuel rest3 with
            | none => none
            | some (v, rest4) =>
              let acc2 := dinsert acc (String.mk k) v
              match skipWs rest4 with
              | ',' :: rest5 => parseObjItems fuel acc2 rest5
              | '\x7d' :: rest5 => some (JVal.obj acc2, rest5)
              | _ => none)
         | _ => none)
    | _ => none
end

/-- `json.loads` on a whole file (trailing whitespace allowed, trailing
data rejected). -/
def jparse (s : String) : Option JVal :=
  match parseJ (2 * s.data.length + 2) s.data with
  | some (v, rest) => if (skipWs rest).isEmpty then some v else none
  | none => none

/-! ## Auth diff / merge engine (`_compute_auth_diff`, the merge loop of
`switch_preset_selective`) -/

structure AuthDiff where
  added : List String
  removed : List String
  modified : List String
  unchanged : List String
  deriving DecidableEq, Repr

/-- `_compute_auth_diff(old_auth, new_auth)`.  `eqv` is Python `==` on the
credential entries (`pyEq` when the entries are parsed JSON). -/
def compute_auth_diff {V : Type} (eqv : V → V → Bool)
    (old_auth new_auth : List (String × V)) : AuthDiff :=
  let old_services := (dkeys old_auth).dedup
  let new_services := (dkeys new_auth).dedup
  let added := new_services.filter (fun s => decide (s ∉ old_services))
  let removed := old_services.filter (fun s => decide (s ∉ new_services))
  let common := old_services.filter (fun s => decide (s ∈ new_services))
  let modified := common.filter (fun s =>
    match dlookup old_auth s, dlookup new_auth s with
    | some a, some b => !eqv a b
    | _, _ => true)
  let unchanged := common.filter (fun s => decide (s ∉ modified))
  { added := pySorted added
    removed := pySorted removed
    modified := pySorted modified
    unchanged := pySorted unchanged }

/-- The merge step of `switch_preset_selective` (lines 226-237 of
`core.py`): `None` replaces wholesale, a list updates/removes exactly the
selected services. -/
def mergeAuth {V : Type} (old_auth new_auth : List (String × V)) :
    Option (List String) → List (String × V)
  | none => new_auth
  | some selected_services =>
    selected_services.foldl (fun merged service =>
      match dlookup new_auth service with
      | some v => dinsert merged service v
      | none => derase merged service) old_auth

/-! ## The manager's file-system state

`authFile` is the content of the live credential file (`none` = absent),
`presetFiles` maps preset names (file stems) to raw file text, and
`backupFiles` holds the names in the backup directory (their contents play
no role in the verified properties).  Wall-clock values (`now`, `ts`) are
passed in as parameters.  Python exceptions become explicit error values;
every operation also returns the post-state, so a mutation that happened
before an exception is observable. -/

inductive OpErr where
  | notFound (msg : String)
  | decodeError
  | attrError
  deriving DecidableEq, Repr

structure PresetMeta where
  created_at : String
  last_used : String
  description : String
  services : List String
  watched_services : List String
  deriving DecidableEq, Repr

structure Config where
  current_preset : Option String
  presets : List (String × PresetMeta)
  deriving DecidableEq, Repr

structure FS where
  authFile : Option String
  presetFiles : List (String × String)
  backupFiles : List String
  config : Config
  deriving DecidableEq, Repr

/-! ## Backup rotator (`_create_backup`) -/

/-- `fnmatch` against the glob pattern used by the rotation step,
`backup_*.json`. -/
def matchBackupGlob (name : String) : Bool :=
  "backup_".data.isPrefixOf name.data && ".json".data.isSuffixOf name.data

/-- The pruning step: keep only the newest 10 `backup_*.json` files (by
Python name sort). -/
def rotateBackups (dir : List String) : List String :=
  if (List.insertionSort strLe (dir.filter matchBackupGlob)).length > 10 then
    dir.filter (fun f => decide (f ∉
      (List.insertionSort strLe (dir.filter matchBackupGlob)).take
        ((List.insertionSort strLe (dir.filter matchBackupGlob)).length - 10)))
  else dir

/-- `_create_backup(name)`: no-op when the live file is missing, else copy
it under `name` (or `backup_<timestamp>.json`) and rotate.  Returns the
created name and the new directory listing. -/
def create_backup (authFile : Option String) (dir : List String)
    (name : Option String) (timestamp : String) : Option String × List String :=
  match authFile with
  | none => (none, dir)
  | some _ =>
    let backup_name := name.getD ("backup_" ++ timestamp ++ ".json")
    let dir1 := if backup_name ∈ dir then dir else dir ++ [backup_name]
    (some backup_name, rotateBackups dir1)

/-! ## Preset store -/

/-- `save_preset(name, description, watched_services)`.  Mirrors the source
order: existence check, `json.load`, `shutil.copy2` into the preset
directory, `auth_data.keys()` (an `AttributeError` when the parsed value is
not an object — at that point the preset file is already written), then the
metadata/config update. -/
def save_preset (fs : FS) (name description : String)
    (watched_services : Option (List String)) (now : String) : Option OpErr × FS :=
  match fs.authFile with
  | none => (some (OpErr.notFound "Auth file not found"), fs)
  | some text =>
    match jparse text with
    | none => (some OpErr.decodeError, fs)
    | some auth_data =>
      let fs1 := { fs with presetFiles := dinsert fs.presetFiles name text }
      match auth_data with
      | JVal.obj fields =>
        let services := dkeys fields
        let watched := watched_services.getD ["openai"]
        let meta : PresetMeta :=
          { created_at := now, last_used := now, description := description,
            services := services, watched_services := watched }
        let cfg : Config :=
          { current_preset := some name,
            presets := dinsert fs.config.presets name meta }
        (none, { fs1 with config := cfg })
      | _ => (some OpErr.attrError, fs1)

/-- `self.config["presets"][name]["last_used"] = now`, guarded by
`if name in self.config["presets"]` (updating an absent key is the
identity, so the guard is folded into the map). -/
def updateLastUsed (presets : List (String × PresetMeta)) (name now : String) :
    List (String × PresetMeta) :=
  presets.map (fun p => if p.1 = name then (p.1, { p.2 with last_used := now }) else p)

structure SwitchResult where
  preset_name : String
  backup_path : Option String
  diff : AuthDiff
  deriving DecidableEq, Repr

inductive SwitchOutcome where
  | ok (r : SwitchResult)
  | err (e : OpErr)
  deriving DecidableEq, Repr

/-- `old_auth = {}` when the live file is absent, else `json.load` of it
(shared verbatim by both switch functions). -/
def readOldAuth (authFile : Option String) : Option JVal :=
  match authFile with
  | none => some (JVal.obj [])
  | some authText => jparse authText

/-- `switch_preset(name, auto_backup)`: read both files, diff, optional
pre-switch backup, then `shutil.copy2` the preset file **byte for byte**
onto the live path, and update `last_used` / `current_preset`.
(The returned source/destination path strings are determined by `name` and
the configured path and are not modelled.) -/
def switch_preset (fs : FS) (name : String) (auto_backup : Bool) (now ts : String) :
    SwitchOutcome × FS :=
  match dlookup fs.presetFiles name with
  | none => (SwitchOutcome.err (OpErr.notFound name), fs)
  | some presetText =>
    match readOldAuth fs.authFile with
    | none => (SwitchOutcome.err OpErr.decodeError, fs)
    | some oldVal =>
      match jparse presetText with
      | none => (SwitchOutcome.err OpErr.decodeError, fs)
      | some newVal =>
        match oldVal, newVal with
        | JVal.obj old_auth, JVal.obj new_auth =>
          let diff := compute_auth_diff pyEq old_auth new_auth
          let backupRun :=
            if auto_backup && fs.authFile.isSome then
              create_backup fs.authFile fs.backupFiles
                (some ("before_" ++ name ++ "_" ++ ts ++ ".json")) ts
            else (none, fs.backupFiles)
          let cfg2 : Config :=
            { current_preset := some name,
              presets := updateLastUsed fs.config.presets name now }
          (SwitchOutcome.ok
            { preset_name := name, backup_path := backupRun.1, diff := diff },
           { fs with authFile := some presetText, backupFiles := backupRun.2,
                     config := cfg2 })
        | _, _ => (SwitchOutcome.err OpErr.attrError, fs)

/-- `switch_preset_selective(name, selected_services, auto_backup)`: same
prelude as `switch_preset`, then merges per `selected_services` and writes
the merged mapping with `json.dump(..., indent=2)` (a re-serialization, not
a byte copy).  The result dict additionally echoes `selected_services`
verbatim; that field carries no information and is not modelled. -/
def switch_preset_selective (fs : FS) (name : String)
    (selected_services : Option (List String)) (auto_backup : Bool) (now ts : String) :
    SwitchOutcome × FS :=
  match dlookup fs.presetFiles name with
  | none => (SwitchOutcome.err (OpErr.notFound name), fs)
  | some presetText =>
    match readOldAuth fs.authFile with
    | none => (SwitchOutcome.err OpErr.decodeError, fs)
    | some oldVal =>
      match jparse presetText with
      | none => (SwitchOutcome.err OpErr.decodeError, fs)
      | some newVal =>
        match oldVal, newVal with
        | JVal.obj old_auth, JVal.obj new_auth =>
          let diff := compute_auth_diff pyEq old_auth new_auth
          let backupRun :=
            if auto_backup && fs.authFile.isSome then
              create_backup fs.authFile fs.backupFiles
                (some ("before_" ++ name ++ "_" ++ ts ++ ".json")) ts
            else (none, fs.backupFiles)
          let merged_auth := mergeAuth old_auth new_auth selected_services
          let cfg2 : Config :=
            { current_preset := some name,
              presets := updateLastUsed fs.config.presets name now }
          (SwitchOutcome.ok
            { preset_name := name, backup_path := backupRun.1, diff := diff },
           { fs with authFile := some (jdump 0 (JVal.obj merged_auth)),
                     backupFiles := backupRun.2, config := cfg2 })
        | _, _ => (SwitchOutcome.err OpErr.attrError, fs)

/-- The scan loop of `detect_current_preset`: compare the parsed live
content with each preset file's parsed content (Python `==`), skipping
files that fail to parse; first match wins. -/
def detectScan (current_auth : JVal) : List (String × String) → Option String
  | [] => none
  | (name, text) :: rest =>
    match jparse text with
    | none => detectScan current_auth rest
    | some preset_auth =>
      if pyEq current_auth preset_auth then some name else detectScan current_auth rest

/-- `detect_current_preset()`: `none` when the live file is absent or
malformed, else the first content-equal preset in directory order. -/
def detect_current_preset (fs : FS) : Option String :=
  match fs.authFile with
  | none => none
  | some text =>
    match jparse text with
    | none => none
    | some current_auth => detectScan current_auth fs.presetFiles

/-! ## Quota window arithmetic -/

/-- Python 3 `round()` to an integer: round half to even.  Written with
integer division so that it evaluates by kernel reduction
(`q.num / q.den` with Euclidean division is `⌊q⌋`). -/
def pyRound (q : ℚ) : ℤ :=
  let f := q.num / (q.den : ℤ)
  let r2 := 2 * (q.num - f * (q.den : ℤ))
  if r2 < (q.den : ℤ) then f
  else if (q.den : ℤ) < r2 then f + 1
  else if f % 2 = 0 then f else f + 1

/-- Python `int()` on a float/rational: truncation toward zero. -/
def pyInt (q : ℚ) : ℤ := q.num.tdiv (q.den : ℤ)

/-- `float(window.get("used_percent", 0))`.  `bool` converts as an int
subclass; numeric strings (which `float()` would parse) and other shapes
do not occur in the modelled API responses. -/
def windowUsedPercent (window : List (String × JVal)) : ℚ :=
  match dlookup window "used_percent" with
  | some (JVal.num q) => q
  | some (JVal.bool b) => if b then 1 else 0
  | _ => 0

/-- `_remaining_percent(window)`. -/
def remaining_percent (window : List (String × JVal)) : ℤ :=
  let used_percent := windowUsedPercent window
  let remaining : ℚ := 100 - used_percent
  if remaining < 0 then 0
  else if remaining > 100 then 100
  else pyRound remaining

/-! ## OpenAI token extraction and dedup (`_extract_openai_oauth`,
`collect_openai_quota`) -/

structure OAuthEntry where
  access : JVal
  expires : Option JVal
  account_id : Option JVal

/-- `_extract_openai_oauth(auth_data)`: `codex` entry, falling back (by
truthiness, as Python `or` does) to `openai`; requires a dict with
`type == "oauth"` and truthy `access`. -/
def extract_openai_oauth (auth_data : List (String × JVal)) : Option OAuthEntry :=
  let codex := dlookup auth_data "codex"
  let entry := if jTruthyO codex then codex else dlookup auth_data "openai"
  match entry with
  | some (JVal.obj e) =>
    if (match dlookup e "type" with
        | some (JVal.str t) => t == "oauth"
        | _ => false) then
      match dlookup e "access" with
      | some a =>
        if jTruthy a then
          some { access := a, expires := dlookup e "expires",
                 account_id := dlookup e "accountId" }
        else none
      | none => none
    else none
  | _ => none

/-- The access value used as dedup key by `collect_openai_quota` (the
extractor's `access`, re-checked for truthiness by the collector). -/
def openaiAccessKey (auth_data : List (String × JVal)) : Option JVal :=
  match extract_openai_oauth auth_data with
  | some entry => if jTruthy entry.access then some entry.access else none
  | none => none

structure TokenItem where
  access : JVal
  expires : Option JVal
  account_id : Option JVal
  presets : List String

/-- `token_map.setdefault(access, {...})["presets"].append(preset_name)`:
dict keys compare with Python `==` (`pyEq`). -/
def tokenMapAdd (m : List (JVal × TokenItem)) (entry : OAuthEntry)
    (preset_name : String) : List (JVal × TokenItem) :=
  if m.any (fun p => pyEq p.1 entry.access) then
    m.map (fun p =>
      if pyEq p.1 entry.access then
        (p.1, { p.2 with presets := p.2.presets ++ [preset_name] })
      else p)
  else
    m ++ [(entry.access,
      { access := entry.access, expires := entry.expires,
        account_id := entry.account_id, presets := [preset_name] })]

/-- One iteration of the dedup loop of `collect_openai_quota`. -/
def tokenMapStep (m : List (JVal × TokenItem))
    (p : String × List (String × JVal)) : List (JVal × TokenItem) :=
  match extract_openai_oauth p.2 with
  | none => m
  | some entry => if jTruthy entry.access then tokenMapAdd m entry p.1 else m

def buildTokenMap (ps : List (String × List (String × JVal))) :
    List (JVal × TokenItem) :=
  ps.foldl tokenMapStep []

/-- `collect_openai_quota`, parametrized by the per-token fetch (whose HTTP
behavior is irrelevant to the dedup property): one fetch per entry of the
token map, each result tagged with the sorted referencing preset names. -/
def collect_openai_quota {R : Type} (fetch : JVal → Option JVal → Option JVal → R)
    (ps : List (String × List (String × JVal))) : List (R × List String) :=
  (buildTokenMap ps).map (fun p =>
    (fetch p.2.access p.2.expires p.2.account_id, pySorted p.2.presets))

/-- `list_preset_auth_data()`: presets in name order, parse failures
skipped, non-dict contents skipped. -/
def presetFileLe : (String × String) → (String × String) → Prop :=
  fun a b => strLe a.1 b.1

instance : DecidableRel presetFileLe := fun a b => by unfold presetFileLe; infer_instance

def list_preset_auth_data (fs : FS) : List (String × List (String × JVal)) :=
  (List.insertionSort presetFileLe fs.presetFiles).filterMap (fun p =>
    match jparse p.2 with
    | some (JVal.obj m) => some (p.1, m)
    | _ => none)

/-! ## Per-token HTTP fetches

HTTP round trips are modelled by outcome values supplied as input; every
request the code issues is recorded in an event trace.  The wall clock and
two irreducibly external conversions — JWT payload decoding
(base64url + UTF-8) and `datetime` epoch→ISO formatting — are abstracted
as environment parameters; no verified property depends on them. -/

inductive HttpOutcome where
  | ok (data : JVal)
  | httpError (code : ℕ) (body : String)
  | exn (msg : String)

inductive NetEvent where
  | openaiGet (bearer : String)
  | googlePost (bearer : String)
  | googleRefresh
  deriving DecidableEq, Repr

structure OpenAIEnv where
  now_ms : ℚ
  now_s : ℚ
  jwtAccountId : String → Option String
  epochToIso : ℚ → String

/-- `_reset_time_iso_from_seconds`: falsy (absent or zero) gives `None`;
values above `1e11` are treated as milliseconds. -/
def reset_time_iso_from_seconds (env : OpenAIEnv) (reset_at : Option JVal) :
    Option String :=
  match reset_at with
  | some (JVal.num q) =>
    if q = 0 then none
    else some (env.epochToIso (if q > 100000000000 then q / 1000 else q))
  | _ => none

/-- `_reset_time_iso_from_now`: falsy or non-positive gives `None`. -/
def reset_time_iso_from_now (env : OpenAIEnv) (reset_after : Option JVal) :
    Option String :=
  match reset_after with
  | some (JVal.num q) => if q ≤ 0 then none else some (env.epochToIso (env.now_s + q))
  | _ => none

/-- Python `a or b` on optional strings (empty string is falsy). -/
def pyOrOptStr (a b : Option String) : Option String :=
  if (match a with | some s => s != "" | none => false) then a else b

/-- `resolved_account_id = account_id or _openai_account_id_from_jwt(...)`. -/
def resolveAccountId (env : OpenAIEnv) (access_token : String)
    (account_id : Option JVal) : Option JVal :=
  if jTruthyO account_id then account_id
  else (env.jwtAccountId access_token).map JVal.str

structure OWindow where
  percent_remaining : ℤ
  reset_time_iso : Option String

structure OpenAIResult where
  provider : String
  account_id : Option JVal
  daily : Option OWindow
  weekly : Option OWindow
  error : Option String

/-- `.get(k)` on a parsed JSON object (the responses in scope are
objects). -/
def jget (v : JVal) (k : String) : Option JVal :=
  match v with
  | JVal.obj m => dlookup m k
  | _ => none

/-- One window (`primary_window` / `secondary_window`) of the OpenAI usage
response; `None` unless the value is a dict, as in the source's
`isinstance` guard. -/
def openaiWindow (env : OpenAIEnv) (w : Option JVal) : Option OWindow :=
  match w with
  | some (JVal.obj p) =>
    some { percent_remaining := remaining_percent p,
           reset_time_iso :=
             pyOrOptStr (reset_time_iso_from_seconds env (dlookup p "reset_at"))
               (reset_time_iso_from_now env (dlookup p "reset_after_seconds")) }
  | _ => none

/-- `_fetch_openai_quota_for_token`, returning the result and the trace of
HTTP requests issued. -/
def fetch_openai_quota_for_token (env : OpenAIEnv) (access_token : String)
    (expires : Option JVal) (account_id : Option JVal) (net : HttpOutcome) :
    OpenAIResult × List NetEvent :=
  let expired : Bool := match expires with
    | some (JVal.num q) => decide (q < env.now_ms)
    | some (JVal.bool b) => decide ((if b then (1 : ℚ) else 0) < env.now_ms)
    | _ => false
  if expired then
    ({ provider := "openai", account_id := account_id, daily := none,
       weekly := none, error := some "Token expired" }, [])
  else
    let resolved := resolveAccountId env access_token account_id
    match net with
    | HttpOutcome.httpError code body =>
      ({ provider := "openai", account_id := resolved, daily := none, weekly := none,
         error := some ("OpenAI API error " ++ toString code ++ ": "
           ++ String.mk (body.data.take 120)) },
       [NetEvent.openaiGet access_token])
    | HttpOutcome.exn msg =>
      ({ provider := "openai", account_id := resolved, daily := none, weekly := none,
         error := some msg }, [NetEvent.openaiGet access_token])
    | HttpOutcome.ok data =>
      let rate_limit := match jget data "rate_limit" with
        | some v => if jTruthy v then v else JVal.obj []
        | none => JVal.obj []
      ({ provider := "openai", account_id := resolved,
         daily := openaiWindow env (jget rate_limit "primary_window"),
         weekly := openaiWindow env (jget rate_limit "secondary_window"),
         error := none }, [NetEvent.openaiGet access_token])

/-! ## Google quota fetch (`_fetch_google_quota_for_token`, lines 737-828;
a second, unreachable copy of this logic sits after the early `return` in
`_extract_antigravity_accounts` and is dead code) -/

def strTruthyO : Option String → Bool
  | none => false
  | some s => s != ""

/-- Python `a or b` for an optional string with a string default. -/
def pyOrStrD (a : Option String) (b : String) : String :=
  match a with
  | some s => if s != "" then s else b
  | none => b

/-- `sub in s` on char lists. -/
def charListHasInfix : List Char → List Char → Bool
  | sub, [] => sub.isEmpty
  | sub, c :: rest => sub.isPrefixOf (c :: rest) || charListHasInfix sub rest

/-- `"401" in str(exc.code)`. -/
def codeHas401 (code : Nat) : Bool :=
  charListHasInfix "401".data (toString code).data

def strLower (s : String) : String := String.mk (s.data.map Char.toLower)

def strContainsSub (s sub : String) : Bool := charListHasInfix sub.data s.data

structure GWindow where
  percent_remaining : ℤ
  reset_time_iso : Option JVal
  label : String

structure GoogleResult where
  provider : String
  account_id : Option String
  daily : Option GWindow
  weekly : Option GWindow
  error : Option String

/-- An error-only result row (the source's error dicts carry no
`daily`/`weekly` keys; absent and `null` are not distinguished here). -/
def gErr (project_id : Option String) (msg : String) : GoogleResult :=
  { provider := "google", account_id := project_id, daily := none,
    weekly := none, error := some msg }

/-- `quota_info.get("remainingFraction", 0)` (numeric in all responses in
scope; a non-numeric value would raise at `remaining * 100`). -/
def jnumOrZero : Option JVal → ℚ
  | some (JVal.num q) => q
  | _ => 0

/-- The label heuristic applied to each model key. -/
def googleLabel (key : String) (model_data : JVal) : String :=
  let lower_key := strLower key
  if strContainsSub lower_key "flash" then "G3Flash"
  else if strContainsSub lower_key "pro" then "G3Pro"
  else if strContainsSub lower_key "claude" then "Claude"
  else if strContainsSub lower_key "gpt" || strContainsSub lower_key "o1" then "GPT/O1"
  else if jTruthyO (jget model_data "displayName") then
    (match jget model_data "displayName" with
     | some (JVal.str s) => s
     | _ => key)
  else key

/-- `results.sort(key=lambda x: x["daily"]["label"] if x["daily"] else "")`. -/
def gLabelKey (r : GoogleResult) : String :=
  match r.daily with
  | some w => w.label
  | none => ""

def gLabelLe : GoogleResult → GoogleResult → Prop :=
  fun a b => strLe (gLabelKey a) (gLabelKey b)

instance : DecidableRel gLabelLe := fun a b => by unfold gLabelLe; infer_instance

/-- The success path of the Google fetch: iterate the models, skip entries
without truthy `quotaInfo`, emit one row per model, sort by label; an empty
harvest (or falsy response data) degrades to a single error row. -/
def googleParseModels (data : JVal) (project_id : Option String) : List GoogleResult :=
  if !jTruthy data then [gErr project_id "No data received"]
  else
    let models := (jget data "models").getD (JVal.obj [])
    let entries := match models with
      | JVal.obj ms => ms
      | _ => []
    let results := entries.filterMap (fun p =>
      let quota_info := jget p.2 "quotaInfo"
      if jTruthyO quota_info then
        let remaining := jnumOrZero (jget (quota_info.getD JVal.null) "remainingFraction")
        some { provider := "google", account_id := project_id,
               daily := some { percent_remaining := pyInt (remaining * 100),
                               reset_time_iso := jget (quota_info.getD JVal.null) "resetTime",
                               label := googleLabel p.1 p.2 },
               weekly := none, error := none }
      else none)
    if results.isEmpty then [gErr project_id "No quota info found"]
    else List.insertionSort gLabelLe results

/-- The at most one refresh and at most two listing requests a single
invocation can perform. -/
structure GoogleNet where
  refreshResult : Option String
  post1 : HttpOutcome
  post2 : HttpOutcome

/-- `str(exc2)` for the retried request (the precise rendering of
`HTTPError` is immaterial to the verified properties). -/
def httpExcStr : HttpOutcome → String
  | HttpOutcome.httpError c _ => "HTTP Error " ++ toString c
  | HttpOutcome.exn m => m
  | HttpOutcome.ok _ => ""

/-- `_fetch_google_quota_for_token`, returning the result rows and the
trace of HTTP requests issued (refresh calls and model-listing posts). -/
def fetch_google_quota_for_token (access_token refresh_token project_id : Option String)
    (net : GoogleNet) : List GoogleResult × List NetEvent :=
  let upfront := !strTruthyO access_token && strTruthyO refresh_token
  let tokenOpt : Option String := if upfront then net.refreshResult else access_token
  let events0 : List NetEvent := if upfront then [NetEvent.googleRefresh] else []
  if !strTruthyO tokenOpt then
    ([gErr (some (pyOrStrD project_id "unknown")) "No access token (Refresh failed)"],
     events0)
  else
    let token := tokenOpt.getD ""
    match net.post1 with
    | HttpOutcome.ok data =>
      (googleParseModels data project_id, events0 ++ [NetEvent.googlePost token])
    | HttpOutcome.exn msg =>
      ([gErr project_id msg], events0 ++ [NetEvent.googlePost token])
    | HttpOutcome.httpError code body =>
      if codeHas401 code && strTruthyO refresh_token
          && decide (access_token = some token) then
        match net.refreshResult with
        | some new_token =>
          if new_token != "" then
            match net.post2 with
            | HttpOutcome.ok data =>
              (googleParseModels data project_id,
               events0 ++ [NetEvent.googlePost token, NetEvent.googleRefresh,
                           NetEvent.googlePost new_token])
            | outcome =>
              ([gErr project_id ("Retry failed: " ++ httpExcStr outcome)],
               events0 ++ [NetEvent.googlePost token, NetEvent.googleRefresh,
                           NetEvent.googlePost new_token])
          else
            ([gErr project_id "Token expired (Refresh failed)"],
             events0 ++ [NetEvent.googlePost token, NetEvent.googleRefresh])
        | none =>
          ([gErr project_id "Token expired (Refresh failed)"],
           events0 ++ [NetEvent.googlePost token, NetEvent.googleRefresh])
      else
        ([gErr project_id ("HTTP " ++ toString code ++ ": "
           ++ String.mk (body.data.take 100))],
         events0 ++ [NetEvent.googlePost token])

/-! ## Properties of the merge step (claim C1) -/

theorem mergeAuth_cons {V : Type} (old_auth new_auth : List (String × V))
    (a : String) (rest : List String) :
    mergeAuth old_auth new_auth (some (a :: rest)) =
      mergeAuth (match dlookup new_auth a with
                 | some v => dinsert old_auth a v
                 | none => derase old_auth a) new_auth (some rest) := by
  simp only [mergeAuth, List.foldl_cons]

/-- Complete per-key characterization of the selective merge. -/
theorem mergeAuth_lookup {V : Type} (old_auth new_auth : List (String × V))
    (ss : List String) (s : String) :
    dlookup (mergeAuth old_auth new_auth (some ss)) s =
      if s ∈ ss then dlookup new_auth s else dlookup old_auth s := by
  induction ss generalizing old_auth with
  | nil => simp [mergeAuth]
  | cons a rest ih =>
    rw [mergeAuth_cons, ih]
    by_cases hmem : s ∈ rest
    · simp [hmem, List.mem_cons]
    · by_cases hsa : s = a
      · subst hsa
        simp only [List.mem_cons, true_or, if_true, hmem, if_false]
        match hnew : dlookup new_auth s with
        | some v => simp [dlookup_dinsert]
        | none => simp [dlookup_derase]
      · have hns : ¬ s ∈ a :: rest := by simp [hsa, hmem]
        have han : ¬ a = s := fun h => hsa h.symm
        simp only [hns, if_false, hmem]
        match hnew : dlookup new_auth a with
        | some v => simp [dlookup_dinsert, han]
        | none => simp [dlookup_derase, han]

/-- C1: `merge(old, new, null)` is `new`; `merge(old, new, [])` is `old`;
for a selected name `s`: present in `new` it maps to `new[s]`, absent from
`new` but present in `old` it is removed, absent from both it is untouched;
and names that were not selected keep their `old` binding. -/
theorem C1_merge_semantics {V : Type} (old_auth new_auth : List (String × V))
    (selected : List String) (s : String) :
    mergeAuth old_auth new_auth none = new_auth ∧
    mergeAuth old_auth new_auth (some []) = old_auth ∧
    (s ∈ selected →
      ((∀ v, dlookup new_auth s = some v →
          dlookup (mergeAuth old_auth new_auth (some selected)) s = some v) ∧
       (dlookup new_auth s = none → (dlookup old_auth s).isSome →
          dlookup (mergeAuth old_auth new_auth (some selected)) s = none) ∧
       (dlookup new_auth s = none → dlookup old_auth s = none →
          dlookup (mergeAuth old_auth new_auth (some selected)) s =
            dlookup old_auth s))) ∧
    (s ∉ selected →
      dlookup (mergeAuth old_auth new_auth (some selected)) s = dlookup old_auth s) := by
  refine ⟨rfl, rfl, ?_, ?_⟩
  · intro hmem
    refine ⟨?_, ?_, ?_⟩
    · intro v hv
      rw [mergeAuth_lookup, if_pos hmem, hv]
    · intro hnone _
      rw [mergeAuth_lookup, if_pos hmem, hnone]
    · intro hnone hold
      rw [mergeAuth_lookup, if_pos hmem, hnone, hold]
  · intro hnm
    rw [mergeAuth_lookup, if_neg hnm]

theorem C1_merge_semantics_witness :
    mergeAuth [("a", 1)] [("b", 2)] none = [("b", 2)] ∧
    dlookup (mergeAuth [("a", (1 : ℕ))] [("b", 2)] (some ["b", "a"])) "b" = some 2 ∧
    dlookup (mergeAuth [("a", (1 : ℕ))] [("b", 2)] (some ["b", "a"])) "a" = none ∧
    dlookup (mergeAuth [("a", (1 : ℕ))] [("b", 2)] (some ["b"])) "a" = some 1 :=
  ⟨(C1_merge_semantics [("a", 1)] [("b", 2)] ["b", "a"] "b").1,
   ((C1_merge_semantics [("a", 1)] [("b", 2)] ["b", "a"] "b").2.2.1
      (by decide)).1 2 (by decide),
   ((C1_merge_semantics [("a", 1)] [("b", 2)] ["b", "a"] "a").2.2.1
      (by decide)).2.1 (by decide) (by decide),
   by rw [(C1_merge_semantics [("a", 1)] [("b", 2)] ["b"] "a").2.2.2 (by decide)]; decide⟩

/-! ## Properties of the diff (claim C2) -/

theorem mem_pySorted {l : List String} {a : String} : a ∈ pySorted l ↔ a ∈ l := by
  simp [pySorted, List.mem_insertionSort]

theorem sorted_pySorted (l : List String) : List.Sorted strLe (pySorted l) :=
  List.sorted_insertionSort strLe l

theorem mem_diff_added {V : Type} (eqv : V → V → Bool) (A B : List (String × V))
    (k : String) :
    k ∈ (compute_auth_diff eqv A B).added ↔ k ∈ dkeys B ∧ k ∉ dkeys A := by
  simp [compute_auth_diff, mem_pySorted, List.mem_filter, List.mem_dedup]

theorem mem_diff_removed {V : Type} (eqv : V → V → Bool) (A B : List (String × V))
    (k : String) :
    k ∈ (compute_auth_diff eqv A B).removed ↔ k ∈ dkeys A ∧ k ∉ dkeys B := by
  simp [compute_auth_diff, mem_pySorted, List.mem_filter, List.mem_dedup]

theorem mem_diff_modified {V : Type} (eqv : V → V → Bool) (A B : List (String × V))
    (k : String) :
    k ∈ (compute_auth_diff eqv A B).modified ↔
      (k ∈ dkeys A ∧ k ∈ dkeys B) ∧
        (match dlookup A k, dlookup B k with
         | some a, some b => !eqv a b
         | _, _ => true) = true := by
  simp only [compute_auth_diff, mem_pySorted, List.mem_filter, List.mem_dedup,
    decide_eq_true_eq]

theorem mem_diff_unchanged {V : Type} (eqv : V → V → Bool) (A B : List (String × V))
    (k : String) :
    k ∈ (compute_auth_diff eqv A B).unchanged ↔
      (k ∈ dkeys A ∧ k ∈ dkeys B) ∧
        ¬ (match dlookup A k, dlookup B k with
           | some a, some b => !eqv a b
           | _, _ => true) = true := by
  have hmod := mem_diff_modified eqv A B k
  simp only [compute_auth_diff, mem_pySorted, List.mem_filter, List.mem_dedup,
    decide_eq_true_eq] at hmod ⊢
  tauto

theorem nodup_pySorted {l : List String} (h : l.Nodup) : (pySorted l).Nodup :=
  ((List.perm_insertionSort strLe l).nodup_iff).mpr h

theorem diff_self_empty {V : Type} (eqv : V → V → Bool) (A : List (String × V))
    (hrefl : ∀ v, eqv v v = true) :
    (compute_auth_diff eqv A A).added = [] ∧
    (compute_auth_diff eqv A A).removed = [] ∧
    (compute_auth_diff eqv A A).modified = [] := by
  refine ⟨?_, ?_, ?_⟩
  · have : ((dkeys A).dedup.filter (fun s => decide (s ∉ (dkeys A).dedup))) = [] := by
      rw [List.filter_eq_nil_iff]
      intro a ha
      simp [List.mem_dedup.mp ha, ha]
    simp only [compute_auth_diff, this]
    rfl
  · have : ((dkeys A).dedup.filter (fun s => decide (s ∉ (dkeys A).dedup))) = [] := by
      rw [List.filter_eq_nil_iff]
      intro a ha
      simp [List.mem_dedup.mp ha, ha]
    simp only [compute_auth_diff, this]
    rfl
  · have hmem : ∀ k, ¬ k ∈ (compute_auth_diff eqv A A).modified := by
      intro k hk
      rw [mem_diff_modified] at hk
      obtain ⟨⟨hA, _⟩, hcond⟩ := hk
      obtain ⟨a, ha⟩ := Option.isSome_iff_exists.mp ((dlookup_mem_dkeys A k).mpr hA)
      rw [ha] at hcond
      simp [hrefl a] at hcond
    exact List.eq_nil_iff_forall_not_mem.mpr hmem

/-- C2: the four diff components are sorted duplicate-free sequences,
pairwise disjoint, covering exactly `keys(A) ∪ keys(B)`; a key present on
both sides lands in exactly one of `modified`/`unchanged` — in `modified`
precisely when the two values are unequal; and `diff(A,A)` has empty
`added`, `removed` and `modified`.  (`eqv` is Python `==` on entries,
which is reflexive.) -/
theorem C2_diff_properties {V : Type} (eqv : V → V → Bool) (A B : List (String × V))
    (hrefl : ∀ v, eqv v v = true) :
    (List.Sorted strLe (compute_auth_diff eqv A B).added ∧
     List.Sorted strLe (compute_auth_diff eqv A B).removed ∧
     List.Sorted strLe (compute_auth_diff eqv A B).modified ∧
     List.Sorted strLe (compute_auth_diff eqv A B).unchanged) ∧
    ((compute_auth_diff eqv A B).added.Nodup ∧
     (compute_auth_diff eqv A B).removed.Nodup ∧
     (compute_auth_diff eqv A B).modified.Nodup ∧
     (compute_auth_diff eqv A B).unchanged.Nodup) ∧
    ((compute_auth_diff eqv A B).added.Disjoint (compute_auth_diff eqv A B).removed ∧
     (compute_auth_diff eqv A B).added.Disjoint (compute_auth_diff eqv A B).modified ∧
     (compute_auth_diff eqv A B).added.Disjoint (compute_auth_diff eqv A B).unchanged ∧
     (compute_auth_diff eqv A B).removed.Disjoint (compute_auth_diff eqv A B).modified ∧
     (compute_auth_diff eqv A B).removed.Disjoint (compute_auth_diff eqv A B).unchanged ∧
     (compute_auth_diff eqv A B).modified.Disjoint (compute_auth_diff eqv A B).unchanged) ∧
    (∀ k, (k ∈ (compute_auth_diff eqv A B).added ∨
           k ∈ (compute_auth_diff eqv A B).removed ∨
           k ∈ (compute_auth_diff eqv A B).modified ∨
           k ∈ (compute_auth_diff eqv A B).unchanged) ↔
          (k ∈ dkeys A ∨ k ∈ dkeys B)) ∧
    (∀ k, k ∈ dkeys A → k ∈ dkeys B →
       ((k ∈ (compute_auth_diff eqv A B).modified ↔
         ¬ k ∈ (compute_auth_diff eqv A B).unchanged) ∧
        (k ∈ (compute_auth_diff eqv A B).modified ↔
         ∃ a b, dlookup A k = some a ∧ dlookup B k = some b ∧ eqv a b = false))) ∧
    ((compute_auth_diff eqv A A).added = [] ∧
     (compute_auth_diff eqv A A).removed = [] ∧
     (compute_auth_diff eqv A A).modified = []) := by
  refine ⟨⟨sorted_pySorted _, sorted_pySorted _, sorted_pySorted _, sorted_pySorted _⟩,
    ⟨nodup_pySorted (((dkeys B).nodup_dedup).filter _),
     nodup_pySorted (((dkeys A).nodup_dedup).filter _),
     nodup_pySorted ((((dkeys A).nodup_dedup).filter _).filter _),
     nodup_pySorted ((((dkeys A).nodup_dedup).filter _).filter _)⟩,
    ⟨?_, ?_, ?_, ?_, ?_, ?_⟩, ?_, ?_, diff_self_empty eqv A hrefl⟩
  · intro k h1 h2
    rw [mem_diff_added] at h1; rw [mem_diff_removed] at h2; tauto
  · intro k h1 h2
    rw [mem_diff_added] at h1; rw [mem_diff_modified] at h2; tauto
  · intro k h1 h2
    rw [mem_diff_added] at h1; rw [mem_diff_unchanged] at h2; tauto
  · intro k h1 h2
    rw [mem_diff_removed] at h1; rw [mem_diff_modified] at h2; tauto
  · intro k h1 h2
    rw [mem_diff_removed] at h1; rw [mem_diff_unchanged] at h2; tauto
  · intro k h1 h2
    rw [mem_diff_modified] at h1; rw [mem_diff_unchanged] at h2; tauto
  · intro k
    rw [mem_diff_added, mem_diff_removed, mem_diff_modified, mem_diff_unchanged]
    by_cases hA : k ∈ dkeys A <;> by_cases hB : k ∈ dkeys B <;> simp [hA, hB]
  · intro k hA hB
    obtain ⟨a, ha⟩ := Option.isSome_iff_exists.mp ((dlookup_mem_dkeys A k).mpr hA)
    obtain ⟨b, hb⟩ := Option.isSome_iff_exists.mp ((dlookup_mem_dkeys B k).mpr hB)
    constructor
    · rw [mem_diff_modified, mem_diff_unchanged]
      simp [hA, hB]
    · rw [mem_diff_modified]
      simp only [hA, hB, true_and, and_true, ha, hb]
      constructor
      · intro hcond
        exact ⟨a, b, rfl, rfl, by simpa using hcond⟩
      · rintro ⟨a2, b2, ha2, hb2, hne⟩
        cases ha2; cases hb2
        simpa using hne

theorem C2_diff_properties_witness :
    (compute_auth_diff (fun a b : ℕ => a == b) [("a", 1)] [("a", 1)]).modified = [] ∧
    List.Sorted strLe
      (compute_auth_diff (fun a b : ℕ => a == b) [("a", 1), ("b", 2)] [("b", 3)]).added :=
  ⟨(C2_diff_properties (fun a b : ℕ => a == b) [("a", 1)] [("a", 1)]
      (fun v => beq_self_eq_true v)).2.2.2.2.2.2.2,
   (C2_diff_properties (fun a b : ℕ => a == b) [("a", 1), ("b", 2)] [("b", 3)]
      (fun v => beq_self_eq_true v)).1.1⟩

/-! ## Properties of the window arithmetic (claim C9) -/

theorem pyRound_bounds {q : ℚ} (h0 : 0 ≤ q) (h1 : q ≤ 100) :
    0 ≤ pyRound q ∧ pyRound q ≤ 100 := by
  have hf : q.num / (q.den : ℤ) = ⌊q⌋ := (Rat.floor_def).symm
  have hfl : (0 : ℤ) ≤ q.num / (q.den : ℤ) := by
    rw [hf]; exact Int.floor_nonneg.mpr h0
  have hfu : q.num / (q.den : ℤ) ≤ 100 := by
    rw [hf]
    have h := Int.floor_le_floor (α := ℚ) h1
    simpa using h
  have hkey : ¬ (2 * (q.num - q.num / (q.den : ℤ) * (q.den : ℤ)) < (q.den : ℤ)) →
      q.num / (q.den : ℤ) + 1 ≤ 100 := by
    intro hr
    by_contra hc
    have hfe : ⌊q⌋ = 100 := by rw [← hf]; omega
    have hq : q = 100 := by
      have hge : (100 : ℚ) ≤ q := by
        have h := Int.floor_le q
        rw [hfe] at h
        exact_mod_cast h
      exact le_antisymm h1 hge
    rw [hq] at hr
    norm_num at hr
  constructor
  · simp only [pyRound]
    split_ifs <;> omega
  · simp only [pyRound]
    split_ifs with hc1 hc2 hc3
    · exact hfu
    · exact hkey hc1
    · exact hfu
    · exact hkey hc1

/-- C9: `_remaining_percent` equals `clamp(100 - used_percent, 0, 100)`
rounded to the nearest integer (Python `round`, half to even), always lies
in `0..100`, and takes the specified values at `used_percent` 150, -10
and 37. -/
theorem C9_remaining_percent (w : List (String × JVal)) :
    remaining_percent w = pyRound (max 0 (min 100 (100 - windowUsedPercent w))) ∧
    0 ≤ remaining_percent w ∧ remaining_percent w ≤ 100 ∧
    remaining_percent [("used_percent", JVal.num 150)] = 0 ∧
    remaining_percent [("used_percent", JVal.num (-10))] = 100 ∧
    remaining_percent [("used_percent", JVal.num 37)] = 63 := by
  have hmain : ∀ v : List (String × JVal),
      remaining_percent v = pyRound (max 0 (min 100 (100 - windowUsedPercent v))) ∧
      0 ≤ remaining_percent v ∧ remaining_percent v ≤ 100 := by
    intro v
    simp only [remaining_percent]
    split_ifs with hc1 hc2
    · rw [min_eq_right (le_of_lt (lt_of_lt_of_le hc1 (by norm_num))),
        max_eq_left (le_of_lt hc1)]
      refine ⟨?_, le_refl 0, by norm_num⟩
      have : pyRound 0 = 0 := by decide
      omega
    · rw [min_eq_left (le_of_lt hc2), max_eq_right (by norm_num : (0:ℚ) ≤ 100)]
      refine ⟨?_, by norm_num, le_refl 100⟩
      have : pyRound 100 = 100 := by decide
      omega
    · push_neg at hc1 hc2
      rw [min_eq_right hc2, max_eq_right hc1]
      exact ⟨rfl, (pyRound_bounds hc1 hc2).1, (pyRound_bounds hc1 hc2).2⟩
  refine ⟨(hmain w).1, (hmain w).2.1, (hmain w).2.2, ?_, ?_, ?_⟩
  · have h := (hmain [("used_percent", JVal.num 150)]).1
    rw [h]
    have hu : windowUsedPercent [("used_percent", JVal.num 150)] = 150 := by
      simp [windowUsedPercent, dlookup]
    rw [hu, show (100 : ℚ) - 150 = -50 by norm_num,
      min_eq_right (by norm_num : (-50 : ℚ) ≤ 100),
      max_eq_left (by norm_num : (-50 : ℚ) ≤ 0)]
    decide
  · have h := (hmain [("used_percent", JVal.num (-10))]).1
    rw [h]
    have hu : windowUsedPercent [("used_percent", JVal.num (-10))] = -10 := by
      simp [windowUsedPercent, dlookup]
    rw [hu, show (100 : ℚ) - (-10) = 110 by norm_num,
      min_eq_left (by norm_num : (100 : ℚ) ≤ 110),
      max_eq_right (by norm_num : (0 : ℚ) ≤ 100)]
    decide
  · have h := (hmain [("used_percent", JVal.num 37)]).1
    rw [h]
    have hu : windowUsedPercent [("used_percent", JVal.num 37)] = 37 := by
      simp [windowUsedPercent, dlookup]
    rw [hu, show (100 : ℚ) - 37 = 63 by norm_num,
      min_eq_right (by norm_num : (63 : ℚ) ≤ 100),
      max_eq_right (by norm_num : (0 : ℚ) ≤ 63)]
    decide

/-! ## Properties of preset detection (claim C10) -/

theorem detectScan_skip (cur : JVal) (l1 l2 : List (String × String))
    (name text : String) (h : jparse text = none) :
    detectScan cur (l1 ++ (name, text) :: l2) = detectScan cur (l1 ++ l2) := by
  induction l1 with
  | nil => simp [detectScan, h]
  | cons p rest ih =>
    obtain ⟨pn, pt⟩ := p
    simp only [List.cons_append, detectScan, List.append_eq]
    rw [ih]

/-- C10: `detect_current_preset` returns `none` when the live file is
absent or malformed (the decode error is swallowed), and a preset file
that fails to parse is skipped without affecting the scan of the others.
The operation is modelled as a pure total function of the state — it can
neither raise nor mutate. -/
theorem C10_detect_robust (fs : FS) (l1 l2 : List (String × String))
    (name text : String) :
    (fs.authFile = none → detect_current_preset fs = none) ∧
    (∀ t, fs.authFile = some t → jparse t = none → detect_current_preset fs = none) ∧
    (jparse text = none → fs.presetFiles = l1 ++ (name, text) :: l2 →
      detect_current_preset fs =
        detect_current_preset { fs with presetFiles := l1 ++ l2 }) := by
  refine ⟨?_, ?_, ?_⟩
  · intro h
    simp [detect_current_preset, h]
  · intro t ht hp
    simp [detect_current_preset, ht, hp]
  · intro hbad hsplit
    simp only [detect_current_preset, hsplit]
    cases hauth : fs.authFile with
    | none => rfl
    | some t =>
      cases hcur : jparse t with
      | none => simp [hcur]
      | some cur => simpa [hcur] using detectScan_skip cur l1 l2 name text hbad

theorem C10_detect_robust_witness :
    detect_current_preset
      { authFile := some "\x7b \x7d",
        presetFiles := [("bad", "oops"), ("good", "\x7b\x7d")],
        backupFiles := [], config := { current_preset := none, presets := [] } } =
      detect_current_preset
        { authFile := some "\x7b \x7d",
          presetFiles := [("good", "\x7b\x7d")],
          backupFiles := [], config := { current_preset := none, presets := [] } } ∧
    detect_current_preset
      { authFile := none, presetFiles := [("good", "\x7b\x7d")],
        backupFiles := [], config := { current_preset := none, presets := [] } } = none ∧
    detect_current_preset
      { authFile := some "not json", presetFiles := [("good", "\x7b\x7d")],
        backupFiles := [], config := { current_preset := none, presets := [] } } = none :=
  ⟨(C10_detect_robust _ [] [("good", "\x7b\x7d")] "bad" "oops").2.2 (by rfl) rfl,
   (C10_detect_robust _ [] [] "" "").1 rfl,
   (C10_detect_robust _ [] [] "" "").2.1 "not json" rfl (by rfl)⟩

/-! ## Properties of backup rotation (claim C5) -/

theorem before_not_backup (f : String)
    (hb : "before_".data.isPrefixOf f.data = true) : matchBackupGlob f = false := by
  by_contra hc
  have hglob : "backup_".data.isPrefixOf f.data = true := by
    cases hm : matchBackupGlob f
    · exact absurd hm hc
    · exact ((Bool.and_eq_true _ _).mp hm).1
  have h1 : "backup_".data <+: f.data := List.isPrefixOf_iff_prefix.mp hglob
  have h2 : "before_".data <+: f.data := List.isPrefixOf_iff_prefix.mp hb
  have e1 : "backup_".data = f.data.take ("backup_".data.length) :=
    List.prefix_iff_eq_take.mp h1
  have e2 : "before_".data = f.data.take ("before_".data.length) :=
    List.prefix_iff_eq_take.mp h2
  have hlen : "backup_".data.length = "before_".data.length := by decide
  rw [hlen] at e1
  have heq : "backup_".data = "before_".data := by rw [e1, ← e2]
  exact absurd heq (by decide)

theorem rotate_keeps_nonglob (dir : List String) (f : String) (hf : f ∈ dir)
    (h : matchBackupGlob f = false) : f ∈ rotateBackups dir := by
  unfold rotateBackups
  split_ifs with hlong
  · refine List.mem_filter.mpr ⟨hf, ?_⟩
    simp only [decide_eq_true_eq]
    intro htake
    have hbs : f ∈ List.insertionSort strLe (dir.filter matchBackupGlob) :=
      List.mem_of_mem_take htake
    have : f ∈ dir.filter matchBackupGlob :=
      (List.perm_insertionSort strLe _).mem_iff.mp hbs
    have := List.of_mem_filter this
    rw [h] at this
    exact absurd this (by simp)
  · exact hf

theorem rotate_mem_glob (dir : List String) (hnd : dir.Nodup)
    (hlong : 10 < (List.insertionSort strLe (dir.filter matchBackupGlob)).length)
    (f : String) :
    (f ∈ rotateBackups dir ∧ matchBackupGlob f = true) ↔
      f ∈ (List.insertionSort strLe (dir.filter matchBackupGlob)).drop
          ((List.insertionSort strLe (dir.filter matchBackupGlob)).length - 10) := by
  have hperm := List.perm_insertionSort strLe (dir.filter matchBackupGlob)
  have hbsnd : (List.insertionSort strLe (dir.filter matchBackupGlob)).Nodup :=
    hperm.nodup_iff.mpr (hnd.filter _)
  have hsplit := List.take_append_drop
    ((List.insertionSort strLe (dir.filter matchBackupGlob)).length - 10)
    (List.insertionSort strLe (dir.filter matchBackupGlob))
  have hnd2 : ((List.insertionSort strLe (dir.filter matchBackupGlob)).take
      ((List.insertionSort strLe (dir.filter matchBackupGlob)).length - 10) ++
      (List.insertionSort strLe (dir.filter matchBackupGlob)).drop
      ((List.insertionSort strLe (dir.filter matchBackupGlob)).length - 10)).Nodup := by
    rw [hsplit]; exact hbsnd
  obtain ⟨-, -, hdisj⟩ := List.nodup_append.mp hnd2
  unfold rotateBackups
  rw [if_pos hlong]
  constructor
  · rintro ⟨hmem, hglob⟩
    obtain ⟨hdir, hnotake⟩ := List.mem_filter.mp hmem
    simp only [decide_eq_true_eq] at hnotake
    have hbs : f ∈ List.insertionSort strLe (dir.filter matchBackupGlob) :=
      hperm.mem_iff.mpr (List.mem_filter.mpr ⟨hdir, hglob⟩)
    rw [← hsplit] at hbs
    rcases List.mem_append.mp hbs with h | h
    · exact absurd h hnotake
    · exact h
  · intro hdrop
    have hbs : f ∈ List.insertionSort strLe (dir.filter matchBackupGlob) := by
      rw [← hsplit]; exact List.mem_append.mpr (Or.inr hdrop)
    have hfl : f ∈ dir.filter matchBackupGlob := hperm.mem_iff.mp hbs
    obtain ⟨hdir, hglob⟩ := List.mem_filter.mp hfl
    refine ⟨List.mem_filter.mpr ⟨hdir, ?_⟩, hglob⟩
    simp only [decide_eq_true_eq]
    intro htake
    exact hdisj htake hdrop

theorem rotate_count (dir : List String) (hnd : dir.Nodup) :
    ((rotateBackups dir).filter matchBackupGlob).length ≤ 10 := by
  by_cases hlong : 10 < (List.insertionSort strLe (dir.filter matchBackupGlob)).length
  · have hmem := rotate_mem_glob dir hnd hlong
    have hndl : ((rotateBackups dir).filter matchBackupGlob).Nodup := by
      have hrot : (rotateBackups dir).Nodup := by
        unfold rotateBackups
        by_cases h10 : (List.insertionSort strLe (dir.filter matchBackupGlob)).length > 10
        · rw [if_pos h10]; exact hnd.filter _
        · rw [if_neg h10]; exact hnd
      exact hrot.filter _
    have hnddrop :
        ((List.insertionSort strLe (dir.filter matchBackupGlob)).drop
          ((List.insertionSort strLe (dir.filter matchBackupGlob)).length - 10)).Nodup :=
      (List.drop_sublist _ _).nodup
        ((List.perm_insertionSort strLe _).nodup_iff.mpr (hnd.filter _))
    have hperm2 : List.Perm ((rotateBackups dir).filter matchBackupGlob)
        ((List.insertionSort strLe (dir.filter matchBackupGlob)).drop
          ((List.insertionSort strLe (dir.filter matchBackupGlob)).length - 10)) := by
      apply List.perm_of_nodup_nodup_toFinset_eq hndl hnddrop
      ext a
      simp only [List.mem_toFinset]
      rw [← hmem a]
      constructor
      · intro h
        exact ⟨List.mem_of_mem_filter h, List.of_mem_filter h⟩
      · rintro ⟨h1, h2⟩
        exact List.mem_filter.mpr ⟨h1, h2⟩
    rw [hperm2.length_eq, List.length_drop]
    omega
  · push_neg at hlong
    have heq : rotateBackups dir = dir := by
      unfold rotateBackups
      rw [if_neg (by omega)]
    rw [heq, ← (List.perm_insertionSort strLe (dir.filter matchBackupGlob)).length_eq]
    omega

/-- C5: after a backup that actually copies, at most 10 `backup_*.json`
files remain — exactly the 10 lexicographically greatest when more than 10
were present after the copy — while files not matching the glob, in
particular every `before_*` pre-switch snapshot, always survive; and when
the live file is absent the backup directory is untouched. -/
theorem C5_backup_rotation (auth : Option String) (dir : List String)
    (explicitName : Option String) (ts : String) (hnd : dir.Nodup) :
    (auth = none → create_backup auth dir explicitName ts = (none, dir)) ∧
    (auth.isSome = true →
      ((create_backup auth dir explicitName ts).2.filter matchBackupGlob).length ≤ 10) ∧
    (∀ a, auth = some a →
       (10 < (List.insertionSort strLe
            (((if explicitName.getD ("backup_" ++ ts ++ ".json") ∈ dir then dir
               else dir ++ [explicitName.getD ("backup_" ++ ts ++ ".json")])).filter
              matchBackupGlob)).length →
         ∀ f, (f ∈ (create_backup auth dir explicitName ts).2 ∧ matchBackupGlob f = true)
              ↔ f ∈ (List.insertionSort strLe
                  (((if explicitName.getD ("backup_" ++ ts ++ ".json") ∈ dir then dir
                     else dir ++ [explicitName.getD ("backup_" ++ ts ++ ".json")])).filter
                    matchBackupGlob)).drop
                  ((List.insertionSort strLe
                    (((if explicitName.getD ("backup_" ++ ts ++ ".json") ∈ dir then dir
                       else dir ++ [explicitName.getD ("backup_" ++ ts ++ ".json")])).filter
                      matchBackupGlob)).length - 10)) ∧
       (∀ f ∈ (if explicitName.getD ("backup_" ++ ts ++ ".json") ∈ dir then dir
               else dir ++ [explicitName.getD ("backup_" ++ ts ++ ".json")]),
          matchBackupGlob f = false →
            f ∈ (create_backup auth dir explicitName ts).2) ∧
       (∀ f ∈ (if explicitName.getD ("backup_" ++ ts ++ ".json") ∈ dir then dir
               else dir ++ [explicitName.getD ("backup_" ++ ts ++ ".json")]),
          "before_".data.isPrefixOf f.data = true →
            f ∈ (create_backup auth dir explicitName ts).2)) := by
  have hnd1 : (if explicitName.getD ("backup_" ++ ts ++ ".json") ∈ dir then dir
      else dir ++ [explicitName.getD ("backup_" ++ ts ++ ".json")]).Nodup := by
    split_ifs with hmem
    · exact hnd
    · exact List.nodup_append.mpr ⟨hnd, List.nodup_singleton _,
        fun x hx1 hx2 => by
          rw [List.mem_singleton.mp hx2] at hx1
          exact hmem hx1⟩
  refine ⟨?_, ?_, ?_⟩
  · intro h; rw [h]; rfl
  · intro hsome
    match auth with
    | none => simp at hsome
    | some a =>
      show ((rotateBackups _).filter matchBackupGlob).length ≤ 10
      exact rotate_count _ hnd1
  · intro a ha
    subst ha
    refine ⟨?_, ?_, ?_⟩
    · intro hlong f
      exact rotate_mem_glob _ hnd1 hlong f
    · intro f hf hglob
      exact rotate_keeps_nonglob _ f hf hglob
    · intro f hf hbef
      exact rotate_keeps_nonglob _ f hf (before_not_backup f hbef)

theorem C5_backup_rotation_witness :
    create_backup none ["backup_a.json"] none "t" = (none, ["backup_a.json"]) ∧
    ((create_backup (some "x") ["backup_01.json", "backup_02.json", "backup_03.json",
        "backup_04.json", "backup_05.json", "backup_06.json", "backup_07.json",
        "backup_08.json", "backup_09.json", "backup_10.json", "before_p_t.json"]
        (some "backup_11.json") "t").2.filter matchBackupGlob).length ≤ 10 ∧
    "before_p_t.json" ∈ (create_backup (some "x") ["backup_01.json", "backup_02.json",
        "backup_03.json", "backup_04.json", "backup_05.json", "backup_06.json",
        "backup_07.json", "backup_08.json", "backup_09.json", "backup_10.json",
        "before_p_t.json"] (some "backup_11.json") "t").2 :=
  ⟨(C5_backup_rotation none ["backup_a.json"] none "t" (by decide)).1 rfl,
   (C5_backup_rotation (some "x") ["backup_01.json", "backup_02.json", "backup_03.json",
      "backup_04.json", "backup_05.json", "backup_06.json", "backup_07.json",
      "backup_08.json", "backup_09.json", "backup_10.json", "before_p_t.json"]
      (some "backup_11.json") "t" (by decide)).2.1 rfl,
   ((C5_backup_rotation (some "x") ["backup_01.json", "backup_02.json", "backup_03.json",
      "backup_04.json", "backup_05.json", "backup_06.json", "backup_07.json",
      "backup_08.json", "backup_09.json", "backup_10.json", "before_p_t.json"]
      (some "backup_11.json") "t" (by decide)).2.2 "x" rfl).2.2 "before_p_t.json"
      (by decide) (by decide)⟩

/-! ## Error behavior of `save_preset` (claim C4) -/

/-- C4 (counterexample to the claim as stated): with live content
`[1, 2]` — valid JSON, not an object — `save_preset` fails with an
`AttributeError` (not `NotFound`) **after** the preset file has been
written; and with unparseable live content it fails with a decode error,
not `NotFound`. -/
theorem C4_counterexample :
    (save_preset
      { authFile := some "[1, 2]", presetFiles := [], backupFiles := [],
        config := { current_preset := none, presets := [] } }
      "p" "" none "T").1 = some OpErr.attrError ∧
    (save_preset
      { authFile := some "[1, 2]", presetFiles := [], backupFiles := [],
        config := { current_preset := none, presets := [] } }
      "p" "" none "T").2.presetFiles = [("p", "[1, 2]")] ∧
    (save_preset
      { authFile := some "oops", presetFiles := [], backupFiles := [],
        config := { current_preset := none, presets := [] } }
      "q" "" none "T").1 = some OpErr.decodeError ∧
    (save_preset
      { authFile := some "oops", presetFiles := [], backupFiles := [],
        config := { current_preset := none, presets := [] } }
      "q" "" none "T").2 =
      { authFile := some "oops", presetFiles := [], backupFiles := [],
        config := { current_preset := none, presets := [] } } := by
  refine ⟨rfl, rfl, rfl, rfl⟩

/-- C4 (amended): `save` fails with `NotFound` when the live file is
absent and with a decode error when its content is not valid JSON — in
both cases nothing is applied; when the content parses to a non-object
JSON value the failure (`AttributeError` at `auth_data.keys()`) happens
only after the preset file has been copied, leaving the config untouched;
when it parses to an object the save succeeds, writing the preset file and
setting `current_preset`. -/
theorem C4_save_atomicity (fs : FS) (name description : String)
    (watched : Option (List String)) (now : String) :
    (fs.authFile = none →
      save_preset fs name description watched now =
        (some (OpErr.notFound "Auth file not found"), fs)) ∧
    (∀ t, fs.authFile = some t → jparse t = none →
      save_preset fs name description watched now = (some OpErr.decodeError, fs)) ∧
    (∀ t v, fs.authFile = some t → jparse t = some v →
      (∀ fields, v ≠ JVal.obj fields) →
      save_preset fs name description watched now =
        (some OpErr.attrError,
         { fs with presetFiles := dinsert fs.presetFiles name t })) ∧
    (∀ t fields, fs.authFile = some t → jparse t = some (JVal.obj fields) →
      (save_preset fs name description watched now).1 = none ∧
      (save_preset fs name description watched now).2.presetFiles =
        dinsert fs.presetFiles name t ∧
      (save_preset fs name description watched now).2.config.current_preset =
        some name) := by
  refine ⟨?_, ?_, ?_, ?_⟩
  · intro h
    simp [save_preset, h]
  · intro t ht hp
    simp [save_preset, ht, hp]
  · intro t v ht hp hno
    cases v with
    | obj fields => exact absurd rfl (hno fields)
    | null => simp [save_preset, ht, hp]
    | bool b => simp [save_preset, ht, hp]
    | num q => simp [save_preset, ht, hp]
    | str s2 => simp [save_preset, ht, hp]
    | arr xs => simp [save_preset, ht, hp]
  · intro t fields ht hp
    simp [save_preset, ht, hp]

theorem C4_save_atomicity_witness :
    save_preset
      { authFile := none, presetFiles := [], backupFiles := [],
        config := { current_preset := none, presets := [] } }
      "p" "" none "T" =
      (some (OpErr.notFound "Auth file not found"),
       { authFile := none, presetFiles := [], backupFiles := [],
         config := { current_preset := none, presets := [] } }) ∧
    (save_preset
      { authFile := some "\x7b\x7d", presetFiles := [], backupFiles := [],
        config := { current_preset := none, presets := [] } }
      "p" "" none "T").1 = none :=
  ⟨(C4_save_atomicity
      { authFile := none, presetFiles := [], backupFiles := [],
        config := { current_preset := none, presets := [] } }
      "p" "" none "T").1 rfl,
   ((C4_save_atomicity
      { authFile := some "\x7b\x7d", presetFiles := [], backupFiles := [],
        config := { current_preset := none, presets := [] } }
      "p" "" none "T").2.2.2 "\x7b\x7d" [] rfl (by rfl)).1⟩

/-! ## Full switch vs. selective switch with `null` selection (claim C3) -/

/-- C3 (counterexample to byte-identical outcomes): preset `p` stores the
text `"\x7b \x7d"` (an empty object with interior whitespace).  A full
`switch_preset` copies those bytes verbatim; `switch_preset_selective`
with `selected_services = null` re-serializes with `indent=2` and writes
`"\x7b\x7d"`.  Both succeed, but the resulting live files differ. -/
theorem C3_counterexample :
    (switch_preset
      { authFile := none, presetFiles := [("p", "\x7b \x7d")], backupFiles := [],
        config := { current_preset := none, presets := [] } }
      "p" true "T" "TS").2.authFile = some "\x7b \x7d" ∧
    (switch_preset_selective
      { authFile := none, presetFiles := [("p", "\x7b \x7d")], backupFiles := [],
        config := { current_preset := none, presets := [] } }
      "p" none true "T" "TS").2.authFile = some "\x7b\x7d" ∧
    (switch_preset
      { authFile := none, presetFiles := [("p", "\x7b \x7d")], backupFiles := [],
        config := { current_preset := none, presets := [] } }
      "p" true "T" "TS").2.authFile ≠
    (switch_preset_selective
      { authFile := none, presetFiles := [("p", "\x7b \x7d")], backupFiles := [],
        config := { current_preset := none, presets := [] } }
      "p" none true "T" "TS").2.authFile := by
  refine ⟨rfl, ?_, ?_⟩
  · show some (jdump 0 (JVal.obj [])) = some "\x7b\x7d"
    simp [jdump]
  · show some "\x7b \x7d" ≠ some (jdump 0 (JVal.obj []))
    simp [jdump]

/-- C3 (amended): a full `switch_preset(name)` and a
`switch_preset_selective(name, null)` agree on success/failure, on the
returned diff and backup path, on the backup directory, preset store and
config after the call, and on failure leave the state untouched; but the
live file they write differs in general — the full switch copies the
preset file byte for byte while the selective switch writes the `indent=2`
re-serialization of its parsed content (the two coincide only when the
preset file is already in that serialization format). -/
theorem C3_switch_equivalence (fs : FS) (name : String) (auto_backup : Bool)
    (now ts : String) :
    ((switch_preset fs name auto_backup now ts).1 =
      (switch_preset_selective fs name none auto_backup now ts).1) ∧
    ((switch_preset fs name auto_backup now ts).2.backupFiles =
      (switch_preset_selective fs name none auto_backup now ts).2.backupFiles) ∧
    ((switch_preset fs name auto_backup now ts).2.config =
      (switch_preset_selective fs name none auto_backup now ts).2.config) ∧
    ((switch_preset fs name auto_backup now ts).2.presetFiles =
      (switch_preset_selective fs name none auto_backup now ts).2.presetFiles) ∧
    (∀ e, (switch_preset fs name auto_backup now ts).1 = SwitchOutcome.err e →
      (switch_preset fs name auto_backup now ts).2 = fs ∧
      (switch_preset_selective fs name none auto_backup now ts).2 = fs) ∧
    (∀ r, (switch_preset fs name auto_backup now ts).1 = SwitchOutcome.ok r →
      ∃ presetText new_auth,
        dlookup fs.presetFiles name = some presetText ∧
        jparse presetText = some (JVal.obj new_auth) ∧
        (switch_preset fs name auto_backup now ts).2.authFile = some presetText ∧
        (switch_preset_selective fs name none auto_backup now ts).2.authFile =
          some (jdump 0 (JVal.obj new_auth))) := by
  cases hpt : dlookup fs.presetFiles name with
  | none =>
    refine ⟨?_, ?_, ?_, ?_, ?_, ?_⟩ <;>
      simp [switch_preset, switch_preset_selective, hpt]
  | some presetText =>
    cases hold : readOldAuth fs.authFile with
    | none =>
      refine ⟨?_, ?_, ?_, ?_, ?_, ?_⟩ <;>
        simp [switch_preset, switch_preset_selective, hpt, hold]
    | some oldVal =>
      cases hnew : jparse presetText with
      | none =>
        refine ⟨?_, ?_, ?_, ?_, ?_, ?_⟩ <;>
          simp [switch_preset, switch_preset_selective, hpt, hold, hnew]
      | some newVal =>
        cases oldVal with
        | obj old_auth =>
          cases newVal with
          | obj new_auth =>
            refine ⟨?_, ?_, ?_, ?_, ?_, ?_⟩
            · simp [switch_preset, switch_preset_selective, hpt, hold, hnew]
            · simp [switch_preset, switch_preset_selective, hpt, hold, hnew]
            · simp [switch_preset, switch_preset_selective, hpt, hold, hnew]
            · simp [switch_preset, switch_preset_selective, hpt, hold, hnew]
            · intro e he
              simp [switch_preset, hpt, hold, hnew] at he
            · intro r _
              refine ⟨presetText, new_auth, rfl, hnew, ?_, ?_⟩
              · simp [switch_preset, hpt, hold, hnew]
              · simp [switch_preset_selective, hpt, hold, hnew, mergeAuth]
          | null =>
            refine ⟨?_, ?_, ?_, ?_, ?_, ?_⟩ <;>
              simp [switch_preset, switch_preset_selective, hpt, hold, hnew]
          | bool b =>
            refine ⟨?_, ?_, ?_, ?_, ?_, ?_⟩ <;>
              simp [switch_preset, switch_preset_selective, hpt, hold, hnew]
          | num q =>
            refine ⟨?_, ?_, ?_, ?_, ?_, ?_⟩ <;>
              simp [switch_preset, switch_preset_selective, hpt, hold, hnew]
          | str s2 =>
            refine ⟨?_, ?_, ?_, ?_, ?_, ?_⟩ <;>
              simp [switch_preset, switch_preset_selective, hpt, hold, hnew]
          | arr xs =>
            refine ⟨?_, ?_, ?_, ?_, ?_, ?_⟩ <;>
              simp [switch_preset, switch_preset_selective, hpt, hold, hnew]
        | null =>
          refine ⟨?_, ?_, ?_, ?_, ?_, ?_⟩ <;>
            simp [switch_preset, switch_preset_selective, hpt, hold, hnew]
        | bool b =>
          refine ⟨?_, ?_, ?_, ?_, ?_, ?_⟩ <;>
            simp [switch_preset, switch_preset_selective, hpt, hold, hnew]
        | num q =>
          refine ⟨?_, ?_, ?_, ?_, ?_, ?_⟩ <;>
            simp [switch_preset, switch_preset_selective, hpt, hold, hnew]
        | str s2 =>
          refine ⟨?_, ?_, ?_, ?_, ?_, ?_⟩ <;>
            simp [switch_preset, switch_preset_selective, hpt, hold, hnew]
        | arr xs =>
          refine ⟨?_, ?_, ?_, ?_, ?_, ?_⟩ <;>
            simp [switch_preset, switch_preset_selective, hpt, hold, hnew]

theorem C3_switch_equivalence_witness :
    (switch_preset
      { authFile := none, presetFiles := [("p", "\x7b \x7d")], backupFiles := [],
        config := { current_preset := none, presets := [] } }
      "p" true "T" "TS").1 =
    (switch_preset_selective
      { authFile := none, presetFiles := [("p", "\x7b \x7d")], backupFiles := [],
        config := { current_preset := none, presets := [] } }
      "p" none true "T" "TS").1 ∧
    (switch_preset
      { authFile := none, presetFiles := [], backupFiles := [],
        config := { current_preset := none, presets := [] } }
      "q" true "T" "TS").2 =
      { authFile := none, presetFiles := [], backupFiles := [],
        config := { current_preset := none, presets := [] } } :=
  ⟨(C3_switch_equivalence
      { authFile := none, presetFiles := [("p", "\x7b \x7d")], backupFiles := [],
        config := { current_preset := none, presets := [] } }
      "p" true "T" "TS").1,
   ((C3_switch_equivalence
      { authFile := none, presetFiles := [], backupFiles := [],
        config := { current_preset := none, presets := [] } }
      "q" true "T" "TS").2.2.2.2.1 (OpErr.notFound "q") rfl).1⟩

/-! ## Temporal properties of the Google fetch (claim C7) -/

def isPostEvent : NetEvent → Bool
  | NetEvent.googlePost _ => true
  | _ => false

def isRefreshEvent : NetEvent → Bool
  | NetEvent.googleRefresh => true
  | _ => false

/-- Number of requests issued to the model-listing endpoint. -/
def countPosts (tr : List NetEvent) : ℕ := (tr.filter isPostEvent).length

/-- Number of requests issued to the token-refresh endpoint. -/
def countRefresh (tr : List NetEvent) : ℕ := (tr.filter isRefreshEvent).length

theorem strTruthyO_none : strTruthyO none = false := rfl

theorem strTruthyO_some (s : String) : strTruthyO (some s) = (s != "") := rfl

/-- Exhaustive enumeration of the traces `_fetch_google_quota_for_token`
can produce, with the side conditions under which each arises. -/
theorem google_fetch_trace_cases (a r p : Option String) (net : GoogleNet) :
    (fetch_google_quota_for_token a r p net).2 = [] ∨
    (fetch_google_quota_for_token a r p net).2 = [NetEvent.googleRefresh] ∨
    (∃ t, (fetch_google_quota_for_token a r p net).2 = [NetEvent.googlePost t]) ∨
    (∃ t, (fetch_google_quota_for_token a r p net).2 =
      [NetEvent.googleRefresh, NetEvent.googlePost t]) ∨
    (∃ s, a = some s ∧ ¬ s = "" ∧ (fetch_google_quota_for_token a r p net).2 =
      [NetEvent.googlePost s, NetEvent.googleRefresh]) ∨
    (∃ s nt code body, a = some s ∧ ¬ s = "" ∧
      net.post1 = HttpOutcome.httpError code body ∧ codeHas401 code = true ∧
      strTruthyO r = true ∧ net.refreshResult = some nt ∧ ¬ nt = "" ∧
      (fetch_google_quota_for_token a r p net).2 =
        [NetEvent.googlePost s, NetEvent.googleRefresh, NetEvent.googlePost nt] ∧
      (∀ m2, net.post2 = HttpOutcome.exn m2 →
        (fetch_google_quota_for_token a r p net).1 =
          [gErr p ("Retry failed: " ++ m2)])) := by
  by_cases ha : strTruthyO a = true
  · obtain ⟨s, rfl, hsne⟩ : ∃ s, a = some s ∧ ¬ s = "" := by
      cases a with
      | none => simp [strTruthyO] at ha
      | some s => exact ⟨s, rfl, by simpa [strTruthyO] using ha⟩
    cases hp1 : net.post1 with
    | ok d =>
      refine Or.inr (Or.inr (Or.inl ⟨s, ?_⟩))
      simp [fetch_google_quota_for_token, ha, hp1]
    | exn m =>
      refine Or.inr (Or.inr (Or.inl ⟨s, ?_⟩))
      simp [fetch_google_quota_for_token, ha, hp1]
    | httpError code body =>
      by_cases hc : (codeHas401 code && strTruthyO r) = true
      · obtain ⟨hc4, hrt⟩ := Bool.and_eq_true _ _ |>.mp hc
        cases hrr : net.refreshResult with
        | none =>
          refine Or.inr (Or.inr (Or.inr (Or.inr (Or.inl ⟨s, rfl, hsne, ?_⟩))))
          simp [fetch_google_quota_for_token, ha, hp1, hc4, hrt, hrr]
        | some nt =>
          by_cases hnt : nt = ""
          · subst hnt
            refine Or.inr (Or.inr (Or.inr (Or.inr (Or.inl ⟨s, rfl, hsne, ?_⟩))))
            simp [fetch_google_quota_for_token, ha, hp1, hc4, hrt, hrr]
          · refine Or.inr (Or.inr (Or.inr (Or.inr (Or.inr
              ⟨s, nt, code, body, rfl, hsne, rfl, hc4, hrt, rfl, hnt, ?_, ?_⟩))))
            · cases hp2 : net.post2 <;>
                simp [fetch_google_quota_for_token, ha, hp1, hc4, hrt, hrr, hnt, hp2]
            · intro m2 hm2
              simp [fetch_google_quota_for_token, ha, hp1, hc4, hrt, hrr, hnt, hm2,
                httpExcStr]
      · refine Or.inr (Or.inr (Or.inl ⟨s, ?_⟩))
        simp only [Bool.and_eq_true, not_and] at hc
        simp [fetch_google_quota_for_token, ha, hp1]
        have hno : ¬ (codeHas401 code = true ∧ strTruthyO r = true) :=
          fun hand => hc hand.1 hand.2
        rw [if_neg hno]
  · have haf : strTruthyO a = false := by simpa using ha
    by_cases hr : strTruthyO r = true
    · cases hrr : net.refreshResult with
      | none =>
        refine Or.inr (Or.inl ?_)
        simp [fetch_google_quota_for_token, haf, hr, hrr, strTruthyO_none]
      | some nt =>
        by_cases hnt : nt = ""
        · subst hnt
          refine Or.inr (Or.inl ?_)
          simp [fetch_google_quota_for_token, haf, hr, hrr, strTruthyO_some]
        · have hane : ¬ a = some nt := by
            cases a with
            | none => simp
            | some s =>
              intro hcontra
              cases hcontra
              simp [strTruthyO] at haf
              exact hnt haf
          cases hp1 : net.post1 with
          | ok d =>
            refine Or.inr (Or.inr (Or.inr (Or.inl ⟨nt, ?_⟩)))
            simp [fetch_google_quota_for_token, haf, hr, hrr, hnt, hp1, strTruthyO_some]
          | exn m =>
            refine Or.inr (Or.inr (Or.inr (Or.inl ⟨nt, ?_⟩)))
            simp [fetch_google_quota_for_token, haf, hr, hrr, hnt, hp1, strTruthyO_some]
          | httpError code body =>
            refine Or.inr (Or.inr (Or.inr (Or.inl ⟨nt, ?_⟩)))
            simp [fetch_google_quota_for_token, haf, hr, hrr, hnt, hp1, strTruthyO_some,
              hane]
    · have hrf : strTruthyO r = false := by simpa using hr
      refine Or.inl ?_
      simp [fetch_google_quota_for_token, haf, hrf]

/-- C7: every invocation of the Google per-token fetch issues at most two
model-listing requests and at most one refresh; a second listing request
happens only after a 401 on a first request that used the pre-existing
access token (never one just obtained by the initial refresh, which would
make the trace start with a refresh); and a failure of the refresh (no
token) or of the retried request is terminal — a single error result, no
further requests. -/
theorem C7_google_retry_discipline
    (access_token refresh_token project_id : Option String) (net : GoogleNet) :
    countPosts (fetch_google_quota_for_token access_token refresh_token
      project_id net).2 ≤ 2 ∧
    countRefresh (fetch_google_quota_for_token access_token refresh_token
      project_id net).2 ≤ 1 ∧
    (countPosts (fetch_google_quota_for_token access_token refresh_token
        project_id net).2 = 2 →
      ∃ s nt code body, access_token = some s ∧ ¬ s = "" ∧
        net.post1 = HttpOutcome.httpError code body ∧ codeHas401 code = true ∧
        strTruthyO refresh_token = true ∧ net.refreshResult = some nt ∧ ¬ nt = "" ∧
        (fetch_google_quota_for_token access_token refresh_token project_id net).2 =
          [NetEvent.googlePost s, NetEvent.googleRefresh, NetEvent.googlePost nt]) ∧
    (countPosts (fetch_google_quota_for_token access_token refresh_token
        project_id net).2 = 2 →
      ∀ m2, net.post2 = HttpOutcome.exn m2 →
        (fetch_google_quota_for_token access_token refresh_token project_id net).1 =
          [gErr project_id ("Retry failed: " ++ m2)]) ∧
    (net.refreshResult = none →
      countPosts (fetch_google_quota_for_token access_token refresh_token
        project_id net).2 ≤ 1) ∧
    (strTruthyO access_token = false →
      countPosts (fetch_google_quota_for_token access_token refresh_token
        project_id net).2 ≤ 1) := by
  rcases google_fetch_trace_cases access_token refresh_token project_id net with
    htr | htr | ⟨t, htr⟩ | ⟨t, htr⟩ | ⟨s, has, hsne, htr⟩ |
    ⟨s, nt, code, body, has, hsne, hp1, hc4, hrt, hrr, hnt, htr, hres⟩
  · refine ⟨?_, ?_, ?_, ?_, ?_, ?_⟩ <;>
      simp [htr, countPosts, countRefresh, isPostEvent, isRefreshEvent]
  · refine ⟨?_, ?_, ?_, ?_, ?_, ?_⟩ <;>
      simp [htr, countPosts, countRefresh, isPostEvent, isRefreshEvent]
  · refine ⟨?_, ?_, ?_, ?_, ?_, ?_⟩ <;>
      simp [htr, countPosts, countRefresh, isPostEvent, isRefreshEvent]
  · refine ⟨?_, ?_, ?_, ?_, ?_, ?_⟩ <;>
      simp [htr, countPosts, countRefresh, isPostEvent, isRefreshEvent]
  · refine ⟨?_, ?_, ?_, ?_, ?_, ?_⟩ <;>
      simp [htr, countPosts, countRefresh, isPostEvent, isRefreshEvent]
  · refine ⟨?_, ?_, ?_, ?_, ?_, ?_⟩
    · simp [htr, countPosts, isPostEvent, isRefreshEvent]
    · simp [htr, countRefresh, isPostEvent, isRefreshEvent]
    · intro _
      exact ⟨s, nt, code, body, has, hsne, hp1, hc4, hrt, hrr, hnt, htr⟩
    · intro _ m2 hm2
      exact hres m2 hm2
    · intro h0
      rw [h0] at hrr
      simp at hrr
    · intro haf
      rw [has] at haf
      simp [strTruthyO_some] at haf
      exact absurd haf hsne

theorem C7_google_retry_discipline_witness :
    countPosts (fetch_google_quota_for_token (some "tok") (some "ref") (some "proj")
      { refreshResult := none, post1 := HttpOutcome.exn "boom",
        post2 := HttpOutcome.exn "boom2" }).2 ≤ 1 ∧
    countPosts (fetch_google_quota_for_token none (some "ref") (some "proj")
      { refreshResult := some "fresh", post1 := HttpOutcome.httpError 401 "denied",
        post2 := HttpOutcome.ok JVal.null }).2 ≤ 1 :=
  ⟨(C7_google_retry_discipline (some "tok") (some "ref") (some "proj")
      { refreshResult := none, post1 := HttpOutcome.exn "boom",
        post2 := HttpOutcome.exn "boom2" }).2.2.2.2.1 rfl,
   (C7_google_retry_discipline none (some "ref") (some "proj")
      { refreshResult := some "fresh", post1 := HttpOutcome.httpError 401 "denied",
        post2 := HttpOutcome.ok JVal.null }).2.2.2.2.2 rfl⟩

/-! ## OpenAI expired-token short-circuit (claim C8) -/

/-- C8: when `expires` is present and numeric and strictly below the
current epoch-millisecond clock, the OpenAI per-token fetch returns
`daily = null`, `weekly = null`, `error = "Token expired"` (with the
caller-supplied account id) and issues no HTTP request at all, whatever
the network would have answered. -/
theorem C8_openai_expired (env : OpenAIEnv) (access_token : String)
    (expires account_id : Option JVal) (net : HttpOutcome) (q : ℚ)
    (hq : expires = some (JVal.num q)) (hlt : q < env.now_ms) :
    fetch_openai_quota_for_token env access_token expires account_id net =
      ({ provider := "openai", account_id := account_id, daily := none,
         weekly := none, error := some "Token expired" }, []) := by
  subst hq
  simp [fetch_openai_quota_for_token, hlt]

theorem C8_openai_expired_witness :
    fetch_openai_quota_for_token
      { now_ms := 10, now_s := 0, jwtAccountId := fun _ => none,
        epochToIso := fun _ => "" }
      "tok" (some (JVal.num 5)) none (HttpOutcome.exn "network") =
      ({ provider := "openai", account_id := none, daily := none,
         weekly := none, error := some "Token expired" }, []) :=
  C8_openai_expired
    { now_ms := 10, now_s := 0, jwtAccountId := fun _ => none,
      epochToIso := fun _ => "" }
    "tok" (some (JVal.num 5)) none (HttpOutcome.exn "network") 5 rfl (by norm_num)

/-! ## Dedup discipline of `collect_openai_quota` (claim C6) -/

theorem pyEq_str (a b : String) : pyEq (JVal.str a) (JVal.str b) = (a == b) := rfl

theorem pyEq_str_iff (a b : String) :
    pyEq (JVal.str a) (JVal.str b) = true ↔ a = b := by
  rw [pyEq_str]; simp

theorem pyEq_str_false_iff (a b : String) :
    pyEq (JVal.str a) (JVal.str b) = false ↔ ¬ a = b := by
  rw [pyEq_str]; simp

/-- Does preset `p` reference dedup key `k` (its extracted truthy access
value compares `==` to `k`)? -/
def refAccessMatches (k : JVal) (p : String × List (String × JVal)) : Bool :=
  match openaiAccessKey p.2 with
  | some u => pyEq u k
  | none => false

/-- The names of the presets referencing `k`, in scan order. -/
def refNames (ps : List (String × List (String × JVal))) (k : JVal) : List String :=
  (ps.filter (refAccessMatches k)).map Prod.fst

theorem refNames_cons (p : String × List (String × JVal))
    (rest : List (String × List (String × JVal))) (k : JVal) :
    refNames (p :: rest) k =
      if refAccessMatches k p then p.1 :: refNames rest k else refNames rest k := by
  by_cases h : refAccessMatches k p <;> simp [refNames, List.filter_cons, h]

def bumpPresets (tok : JVal) (name : String) (e : JVal × TokenItem) :
    JVal × TokenItem :=
  if pyEq e.1 tok then (e.1, { e.2 with presets := e.2.presets ++ [name] }) else e

theorem bumpPresets_fst (tok : JVal) (name : String) (e : JVal × TokenItem) :
    (bumpPresets tok name e).1 = e.1 := by
  unfold bumpPresets; split <;> rfl

theorem tokenMapAdd_pos (acc : List (JVal × TokenItem)) (entry : OAuthEntry)
    (name : String) (h : (acc.any (fun e => pyEq e.1 entry.access)) = true) :
    tokenMapAdd acc entry name = acc.map (bumpPresets entry.access name) := by
  simp only [tokenMapAdd, h, if_true]
  rfl

theorem tokenMapAdd_neg (acc : List (JVal × TokenItem)) (entry : OAuthEntry)
    (name : String) (h : (acc.any (fun e => pyEq e.1 entry.access)) = false) :
    tokenMapAdd acc entry name = acc ++ [(entry.access,
      { access := entry.access, expires := entry.expires,
        account_id := entry.account_id, presets := [name] })] := by
  simp only [tokenMapAdd, h]
  simp

/-- Invariant of the dedup fold of `collect_openai_quota`: duplicate-free
(string) keys, one entry exactly for each referenced token, each entry
accumulating the names of exactly the presets referencing its key, in scan
order.  (`hstr` records that every extracted access value is a JSON
string, which is what the claim's "equal as strings" presupposes and what
real tokens are.) -/
theorem tokenMap_foldl_spec (ps : List (String × List (String × JVal))) :
    ∀ acc : List (JVal × TokenItem),
    (∀ p ∈ ps, ∀ u, openaiAccessKey p.2 = some u → ∃ s, u = JVal.str s) →
    (∀ e ∈ acc, ∃ s, e.1 = JVal.str s) →
    List.Pairwise (fun p q => pyEq p.1 q.1 = false) acc →
    ((∀ e ∈ ps.foldl tokenMapStep acc, ∃ s, e.1 = JVal.str s) ∧
     List.Pairwise (fun p q => pyEq p.1 q.1 = false) (ps.foldl tokenMapStep acc) ∧
     (∀ t, (∃ e ∈ ps.foldl tokenMapStep acc, e.1 = t) ↔
        ((∃ e ∈ acc, e.1 = t) ∨ (∃ p ∈ ps, openaiAccessKey p.2 = some t))) ∧
     (∀ e2 ∈ ps.foldl tokenMapStep acc,
        (∃ e1 ∈ acc, e1.1 = e2.1 ∧
           e2.2.presets = e1.2.presets ++ refNames ps e2.1) ∨
        ((∀ e1 ∈ acc, ¬ e1.1 = e2.1) ∧ e2.2.presets = refNames ps e2.1))) := by
  induction ps with
  | nil =>
    intro acc hstr hkeys hpw
    refine ⟨hkeys, hpw, ?_, ?_⟩
    · intro t; simp
    · intro e2 h2
      left
      exact ⟨e2, h2, rfl, by simp [refNames]⟩
  | cons p rest ih =>
    intro acc hstr hkeys hpw
    rw [List.foldl_cons]
    have hstrrest : ∀ q ∈ rest, ∀ u, openaiAccessKey q.2 = some u →
        ∃ s, u = JVal.str s :=
      fun q hq => hstr q (List.mem_cons_of_mem p hq)
    cases hkey : openaiAccessKey p.2 with
    | none =>
      have hstepeq : tokenMapStep acc p = acc := by
        cases hE : extract_openai_oauth p.2 with
        | none => simp [tokenMapStep, hE]
        | some entry =>
          by_cases hT : jTruthy entry.access = true
          · simp [openaiAccessKey, hE, hT] at hkey
          · have hT2 : jTruthy entry.access = false := by simpa using hT
            simp [tokenMapStep, hE, hT2]
      rw [hstepeq]
      obtain ⟨r1, r2, r3, r4⟩ := ih acc hstrrest hkeys hpw
      have hrn : ∀ k, refNames (p :: rest) k = refNames rest k := by
        intro k
        rw [refNames_cons]
        simp [refAccessMatches, hkey]
      refine ⟨r1, r2, ?_, ?_⟩
      · intro t
        rw [r3 t]
        constructor
        · rintro (h | ⟨q, hq, hq2⟩)
          · exact Or.inl h
          · exact Or.inr ⟨q, List.mem_cons_of_mem p hq, hq2⟩
        · rintro (h | ⟨q, hq, hq2⟩)
          · exact Or.inl h
          · rcases List.mem_cons.mp hq with rfl | hq
            · rw [hkey] at hq2; cases hq2
            · exact Or.inr ⟨q, hq, hq2⟩
      · intro e2 h2
        rcases r4 e2 h2 with ⟨e1, h1, he, hp2⟩ | ⟨hne, hp2⟩
        · left; exact ⟨e1, h1, he, by rw [hp2, hrn]⟩
        · right; exact ⟨hne, by rw [hp2, hrn]⟩
    | some tok =>
      have hex : ∃ entry, extract_openai_oauth p.2 = some entry ∧
          jTruthy entry.access = true ∧ entry.access = tok := by
        cases hE : extract_openai_oauth p.2 with
        | none => simp [openaiAccessKey, hE] at hkey
        | some entry =>
          by_cases hT : jTruthy entry.access = true
          · simp only [openaiAccessKey, hE, hT, if_true] at hkey
            exact ⟨entry, rfl, hT, by injection hkey⟩
          · have hT2 : jTruthy entry.access = false := by simpa using hT
            simp [openaiAccessKey, hE, hT2] at hkey
      obtain ⟨entry, hE, hT, hacc⟩ := hex
      obtain ⟨s0, hs0⟩ := hstr p (List.mem_cons_self p rest) tok hkey
      have hstepeq : tokenMapStep acc p = tokenMapAdd acc entry p.1 := by
        simp [tokenMapStep, hE, hT]
      rw [hstepeq]
      have hmatch_self : refAccessMatches tok p = true := by
        simp only [refAccessMatches, hkey, hs0]
        exact (pyEq_str_iff s0 s0).mpr rfl
      by_cases hAny : (acc.any (fun e => pyEq e.1 entry.access)) = true
      · -- a pyEq-equal key already exists: update in place
        rw [tokenMapAdd_pos acc entry p.1 hAny]
        -- the matching key is literally `tok`
        obtain ⟨e0, he0, hpe0⟩ : ∃ e0 ∈ acc, pyEq e0.1 entry.access = true := by
          simpa using List.any_eq_true.mp hAny
        have htok_in_acc : e0.1 = tok := by
          obtain ⟨s1, hs1⟩ := hkeys e0 he0
          rw [hs1, hacc, hs0] at hpe0
          rw [hs1, hs0]
          rw [(pyEq_str_iff s1 s0).mp hpe0]
        have hkeysA : ∀ e ∈ acc.map (bumpPresets entry.access p.1), ∃ s, e.1 = JVal.str s := by
          intro e he
          obtain ⟨e1, he1, rfl⟩ := List.mem_map.mp he
          rw [bumpPresets_fst]
          exact hkeys e1 he1
        have hpwA : List.Pairwise (fun a b => pyEq a.1 b.1 = false)
            (acc.map (bumpPresets entry.access p.1)) := by
          rw [List.pairwise_map]
          refine hpw.imp ?_
          intro a b hab
          rw [bumpPresets_fst, bumpPresets_fst]
          exact hab
        obtain ⟨r1, r2, r3, r4⟩ := ih _ hstrrest hkeysA hpwA
        refine ⟨r1, r2, ?_, ?_⟩
        · intro t
          rw [r3 t]
          have hkA : (∃ e ∈ acc.map (bumpPresets entry.access p.1), e.1 = t) ↔
              ∃ e ∈ acc, e.1 = t := by
            constructor
            · rintro ⟨e, he, rfl⟩
              obtain ⟨e1, he1, rfl⟩ := List.mem_map.mp he
              exact ⟨e1, he1, (bumpPresets_fst _ _ _).symm⟩
            · rintro ⟨e, he, rfl⟩
              exact ⟨bumpPresets entry.access p.1 e,
                List.mem_map_of_mem _ he, bumpPresets_fst _ _ _⟩
          rw [hkA]
          constructor
          · rintro (h | ⟨q, hq, hq2⟩)
            · exact Or.inl h
            · exact Or.inr ⟨q, List.mem_cons_of_mem p hq, hq2⟩
          · rintro (h | ⟨q, hq, hq2⟩)
            · exact Or.inl h
            · rcases List.mem_cons.mp hq with rfl | hq
              · rw [hkey] at hq2
                injection hq2 with hq2
                exact Or.inl ⟨e0, he0, htok_in_acc.trans hq2⟩
              · exact Or.inr ⟨q, hq, hq2⟩
        · intro e2 h2
          obtain ⟨s2, hs2⟩ := r1 e2 h2
          rcases r4 e2 h2 with ⟨e1, h1, he, hp2⟩ | ⟨hne, hp2⟩
          · obtain ⟨e1b, he1b, rfl⟩ := List.mem_map.mp h1
            by_cases hpe : pyEq e1b.1 entry.access = true
            · -- this is the updated entry: its key is tok
              have hkeq : e1b.1 = tok := by
                obtain ⟨s1, hs1⟩ := hkeys e1b he1b
                rw [hs1, hacc, hs0] at hpe
                rw [hs1, hs0, (pyEq_str_iff s1 s0).mp hpe]
              have hbump : bumpPresets entry.access p.1 e1b =
                  (e1b.1, { e1b.2 with presets := e1b.2.presets ++ [p.1] }) := by
                unfold bumpPresets
                rw [if_pos hpe]
              have hkey2 : e2.1 = tok := by
                rw [← he, hbump]
                exact hkeq
              left
              refine ⟨e1b, he1b, by rw [← he, hbump], ?_⟩
              rw [hp2, refNames_cons]
              rw [hkey2, hmatch_self]
              rw [if_pos rfl, hbump]
              simp
            · have hpe2 : pyEq e1b.1 entry.access = false := by simpa using hpe
              have hbump : bumpPresets entry.access p.1 e1b = e1b := by
                unfold bumpPresets
                rw [if_neg (by simp [hpe2])]
              rw [hbump] at he hp2
              have hnm : refAccessMatches e2.1 p = false := by
                obtain ⟨s1, hs1⟩ := hkeys e1b he1b
                simp only [refAccessMatches, hkey]
                rw [hs0, ← he, hs1, pyEq_str_false_iff]
                intro hcon
                rw [hs1, hacc, hs0, pyEq_str_false_iff] at hpe2
                exact hpe2 hcon.symm
              left
              refine ⟨e1b, he1b, he, ?_⟩
              rw [hp2, refNames_cons, hnm]
              simp
          · -- a key first seen while scanning `rest`: not in acc, so not tok
            have hne_acc : ∀ e1 ∈ acc, ¬ e1.1 = e2.1 := by
              intro e1 he1 hcon
              exact hne (bumpPresets entry.access p.1 e1)
                (List.mem_map_of_mem _ he1) (by rw [bumpPresets_fst]; exact hcon)
            have hnm : refAccessMatches e2.1 p = false := by
              simp only [refAccessMatches, hkey]
              rw [hs0, hs2, pyEq_str_false_iff]
              intro hcon
              exact hne_acc e0 he0 (by rw [htok_in_acc, hs0, hcon, ← hs2])
            right
            refine ⟨hne_acc, ?_⟩
            rw [hp2, refNames_cons, hnm]
            simp
      · -- a fresh key: append a new item
        have hAnyF : (acc.any (fun e => pyEq e.1 entry.access)) = false := by
          simpa using hAny
        have hnot : ∀ e ∈ acc, pyEq e.1 entry.access = false := by
          intro e he
          have := List.any_eq_false.mp hAnyF e he
          simpa using this
        rw [tokenMapAdd_neg acc entry p.1 hAnyF]
        have hkeysA : ∀ e ∈ acc ++ [(entry.access,
            { access := entry.access, expires := entry.expires,
              account_id := entry.account_id, presets := [p.1] })],
            ∃ s, e.1 = JVal.str s := by
          intro e he
          rcases List.mem_append.mp he with he | he
          · exact hkeys e he
          · rw [List.mem_singleton.mp he]
            exact ⟨s0, by rw [hacc, hs0]⟩
        have hpwA : List.Pairwise (fun a b => pyEq a.1 b.1 = false)
            (acc ++ [(entry.access,
              { access := entry.access, expires := entry.expires,
                account_id := entry.account_id, presets := [p.1] })]) := by
          rw [List.pairwise_append]
          refine ⟨hpw, List.pairwise_singleton _ _, ?_⟩
          intro a ha b hb
          rw [List.mem_singleton.mp hb]
          exact hnot a ha
        obtain ⟨r1, r2, r3, r4⟩ := ih _ hstrrest hkeysA hpwA
        refine ⟨r1, r2, ?_, ?_⟩
        · intro t
          rw [r3 t]
          constructor
          · rintro (⟨e, he, rfl⟩ | ⟨q, hq, hq2⟩)
            · rcases List.mem_append.mp he with he | he
              · exact Or.inl ⟨e, he, rfl⟩
              · rw [List.mem_singleton.mp he]
                exact Or.inr ⟨p, List.mem_cons_self p rest, by rw [hacc, hkey]⟩
            · exact Or.inr ⟨q, List.mem_cons_of_mem p hq, hq2⟩
          · rintro (⟨e, he, rfl⟩ | ⟨q, hq, hq2⟩)
            · exact Or.inl ⟨e, List.mem_append_left _ he, rfl⟩
            · rcases List.mem_cons.mp hq with heq | hq
              · rw [heq, hkey] at hq2
                injection hq2 with hq2
                refine Or.inl ⟨(entry.access,
                  { access := entry.access, expires := entry.expires,
                    account_id := entry.account_id, presets := [p.1] }),
                  List.mem_append_right _ (List.mem_singleton_self _), ?_⟩
                rw [hacc, hq2]
              · exact Or.inr ⟨q, hq, hq2⟩
        · intro e2 h2
          obtain ⟨s2, hs2⟩ := r1 e2 h2
          rcases r4 e2 h2 with ⟨e1, h1, he, hp2⟩ | ⟨hne, hp2⟩
          · rcases List.mem_append.mp h1 with h1 | h1
            · -- an old entry: its key is not tok
              have hnm : refAccessMatches e2.1 p = false := by
                obtain ⟨s1, hs1⟩ := hkeys e1 h1
                have := hnot e1 h1
                rw [hs1, hacc, hs0] at this
                simp only [refAccessMatches, hkey]
                rw [hs0, ← he, hs1, pyEq_str_false_iff]
                rw [pyEq_str_false_iff] at this
                exact fun hcon => this hcon.symm
              left
              refine ⟨e1, h1, he, ?_⟩
              rw [hp2, refNames_cons, hnm]
              simp
            · -- the freshly appended entry: key tok, started at [p.1]
              rw [List.mem_singleton.mp h1] at he hp2
              have hkey2 : e2.1 = entry.access := by rw [← he]
              right
              constructor
              · intro e1 he1 hcon
                have hf := hnot e1 he1
                obtain ⟨s1, hs1⟩ := hkeys e1 he1
                rw [hs1, hacc, hs0, pyEq_str_false_iff] at hf
                apply hf
                have hstr_eq : JVal.str s1 = JVal.str s0 := by
                  rw [← hs1, hcon, hkey2, hacc, hs0]
                injection hstr_eq
              · have hm : refAccessMatches e2.1 p = true := by
                  rw [hkey2, hacc]; exact hmatch_self
                rw [hp2, refNames_cons, hm, if_pos rfl]
                simp
          · right
            have hne_acc : ∀ e1 ∈ acc, ¬ e1.1 = e2.1 :=
              fun e1 he1 => hne e1 (List.mem_append_left _ he1)
            have hne_tok : ¬ entry.access = e2.1 :=
              hne _ (List.mem_append_right _ (List.mem_singleton_self _))
            have hnm : refAccessMatches e2.1 p = false := by
              simp only [refAccessMatches, hkey]
              rw [hs0, hs2, pyEq_str_false_iff]
              intro hcon
              exact hne_tok (by rw [hacc, hs0, hcon, ← hs2])
            refine ⟨hne_acc, ?_⟩
            rw [hp2, refNames_cons, hnm]
            simp

/-- C6: over the presets on disk (scanned in name order, unparseable and
non-object files skipped), the OpenAI collector fetches once per entry of
the token map; the token map has pairwise-distinct keys, holds exactly the
access tokens referenced by some preset, and each entry's `presets` field
lists exactly the presets whose extracted token equals its key — so the
emitted `QuotaResult` rows carry the sorted list of every referencing
preset name.  (`hstr`: extracted access tokens are JSON strings, the
claim's "equal as strings".) -/
theorem C6_collect_openai_dedup (fs : FS) {R : Type}
    (fetch : JVal → Option JVal → Option JVal → R)
    (hstr : ∀ p ∈ list_preset_auth_data fs, ∀ u,
      openaiAccessKey p.2 = some u → ∃ s, u = JVal.str s) :
    List.Pairwise (fun p q => pyEq p.1 q.1 = false)
      (buildTokenMap (list_preset_auth_data fs)) ∧
    (∀ t, (∃ e ∈ buildTokenMap (list_preset_auth_data fs), e.1 = t) ↔
      (∃ p ∈ list_preset_auth_data fs, openaiAccessKey p.2 = some t)) ∧
    (∀ e ∈ buildTokenMap (list_preset_auth_data fs),
       e.2.presets = refNames (list_preset_auth_data fs) e.1) ∧
    collect_openai_quota fetch (list_preset_auth_data fs) =
      (buildTokenMap (list_preset_auth_data fs)).map (fun e =>
        (fetch e.2.access e.2.expires e.2.account_id, pySorted e.2.presets)) ∧
    (∀ x ∈ collect_openai_quota fetch (list_preset_auth_data fs),
       List.Sorted strLe x.2) := by
  obtain ⟨r1, r2, r3, r4⟩ := tokenMap_foldl_spec (list_preset_auth_data fs) []
    hstr (by intro e he; cases he) (List.Pairwise.nil)
  refine ⟨r2, ?_, ?_, rfl, ?_⟩
  · intro t
    rw [show buildTokenMap (list_preset_auth_data fs) =
      (list_preset_auth_data fs).foldl tokenMapStep [] from rfl, r3 t]
    simp
  · intro e he
    rcases r4 e he with ⟨e1, h1, _⟩ | ⟨_, hp⟩
    · cases h1
    · exact hp
  · intro x hx
    obtain ⟨e, _, rfl⟩ := List.mem_map.mp hx
    exact sorted_pySorted _

theorem C6_collect_openai_dedup_witness :
    collect_openai_quota (fun _ _ _ => (0 : ℕ))
      (list_preset_auth_data
        { authFile := none,
          presetFiles :=
            [("b", "\x7b\x22openai\x22: \x7b\x22type\x22: \x22oauth\x22, \x22access\x22: \x22tok\x22\x7d\x7d"),
             ("a", "\x7b\x22openai\x22: \x7b\x22type\x22: \x22oauth\x22, \x22access\x22: \x22tok\x22\x7d\x7d")],
          backupFiles := [], config := { current_preset := none, presets := [] } }) =
      (buildTokenMap (list_preset_auth_data
        { authFile := none,
          presetFiles :=
            [("b", "\x7b\x22openai\x22: \x7b\x22type\x22: \x22oauth\x22, \x22access\x22: \x22tok\x22\x7d\x7d"),
             ("a", "\x7b\x22openai\x22: \x7b\x22type\x22: \x22oauth\x22, \x22access\x22: \x22tok\x22\x7d\x7d")],
          backupFiles := [], config := { current_preset := none, presets := [] } })).map
        (fun e => ((0 : ℕ), pySorted e.2.presets)) :=
  (C6_collect_openai_dedup
    { authFile := none,
      presetFiles :=
        [("b", "\x7b\x22openai\x22: \x7b\x22type\x22: \x22oauth\x22, \x22access\x22: \x22tok\x22\x7d\x7d"),
         ("a", "\x7b\x22openai\x22: \x7b\x22type\x22: \x22oauth\x22, \x22access\x22: \x22tok\x22\x7d\x7d")],
      backupFiles := [], config := { current_preset := none, presets := [] } }
    (fun _ _ _ => (0 : ℕ))
    (by
      intro p hp u hu
      have h1 : list_preset_auth_data
          { authFile := none,
            presetFiles :=
              [("b", "\x7b\x22openai\x22: \x7b\x22type\x22: \x22oauth\x22, \x22access\x22: \x22tok\x22\x7d\x7d"),
               ("a", "\x7b\x22openai\x22: \x7b\x22type\x22: \x22oauth\x22, \x22access\x22: \x22tok\x22\x7d\x7d")],
            backupFiles := [], config := { current_preset := none, presets := [] } } =
          [("a", [("openai", JVal.obj [("type", JVal.str "oauth"),
                    ("access", JVal.str "tok")])]),
           ("b", [("openai", JVal.obj [("type", JVal.str "oauth"),
                    ("access", JVal.str "tok")])])] := by rfl
      rw [h1] at hp
      have hk : openaiAccessKey
          [("openai", JVal.obj [("type", JVal.str "oauth"),
            ("access", JVal.str "tok")])] = some (JVal.str "tok") := by rfl
      rcases List.mem_cons.mp hp with heq | hp2
      · rw [heq] at hu
        rw [hk] at hu
        injection hu with hu
        exact ⟨"tok", hu.symm⟩
      · rcases List.mem_cons.mp hp2 with heq | hp3
        · rw [heq] at hu
          rw [hk] at hu
          injection hu with hu
          exact ⟨"tok", hu.symm⟩
        · cases hp3)).2.2.2.1

end OPM
